import Mathlib

set_option linter.unusedVariables false

/- Byte-level model of httpfile's HTTPFileReader and AsyncHTTPFileReader
   (src/python-module/python-httpfile/httpfile/__init__.py).
   Bytes are Nat values; a transport response body is the suffix of the
   fixed resource's byte list starting at the requested range offset. -/

/-- A transport response handle: the body visible from byte offset `off` of
the resource `content`; `pos` counts bytes consumed from the body (what the
transport's own tell reports); `log` is ghost instrumentation recording the
size of each chunk delivered by this handle. -/
structure Handle where
  content : List Nat
  off : Nat
  pos : Nat
  closed : Bool
  log : List Nat
  deriving DecidableEq

namespace Handle

def avail (h : Handle) : List Nat := h.content.drop (h.off + h.pos)

def read (h : Handle) (size : Option Nat) : List Nat × Handle :=
  let data := match size with
    | none => h.avail
    | some n => h.avail.take n
  (data, { h with pos := h.pos + data.length, log := h.log ++ [data.length] })

def readinto (h : Handle) (bufsize : Nat) : Nat × Handle :=
  let data := h.avail.take bufsize
  (data.length, { h with pos := h.pos + data.length, log := h.log ++ [data.length] })

def takeLine : List Nat → List Nat
  | [] => []
  | b :: rest => if b = 10 then [b] else b :: takeLine rest

def readline (h : Handle) (size : Option Nat) : List Nat × Handle :=
  let line := takeLine h.avail
  let data := match size with
    | none => line
    | some n => line.take n
  (data, { h with pos := h.pos + data.length, log := h.log ++ [data.length] })

def linesOfAux : Nat → List Nat → List (List Nat)
  | 0, _ => []
  | _, [] => []
  | fuel + 1, l => takeLine l :: linesOfAux fuel (l.drop (takeLine l).length)

def linesOf (l : List Nat) : List (List Nat) := linesOfAux l.length l

def takeHint : List (List Nat) → Int → List (List Nat)
  | [], _ => []
  | x :: rest, hint =>
    if hint ≤ 0 then x :: rest
    else if (x.length : Int) ≥ hint then [x]
    else x :: takeHint rest (hint - x.length)

def readlines (h : Handle) (hint : Int) : List (List Nat) × Handle :=
  let ls := takeHint (linesOf h.avail) hint
  let total := (ls.map List.length).sum
  (ls, { h with pos := h.pos + total, log := h.log ++ [total] })

def close (h : Handle) : Handle := { h with closed := true }

end Handle

/-- The transport opener: given a byte-range start offset, yields a fresh
handle and the total length reported by the new response's headers
(none models a response carrying no total length). -/
structure World where
  openAt : Nat → Handle × Option Nat

/-- The fixed-content resource: every open at offset `start` sees the same
bytes and reports the same total length. -/
def World.fixed (content : List Nat) : World :=
  ⟨fun start =>
    ({ content := content, off := start, pos := 0, closed := false, log := [] },
     some content.length)⟩

inductive Err where
  | closedFile
  | notSeekableStream
  | negativeSeek
  | badWhence
  | reconnectUnsupported
  | sizeChanged
  | espipeNonSeekable
  deriving DecidableEq

/-- The stream instance's state: the fields HTTPFileReader.__init__ stores,
plus `opens`, ghost instrumentation counting urlopen calls made after
construction. `file_can_tell` is the cached capability probe. -/
structure HState where
  length : Nat
  chunked : Bool
  start : Nat
  closed : Bool
  seek_threshold : Nat
  _seekable : Bool
  file_can_tell : Bool
  response : Handle
  opens : Nat
  deriving DecidableEq

def HState._add_start (s : HState) (delta : Nat) : HState :=
  if s.file_can_tell then s else { s with start := s.start + delta }

def file_closed (s : HState) : Bool := s.response.closed

/-- shutil.COPY_BUFSIZE on non-Windows builds. -/
def COPY_BUFSIZE : Nat := 65536

/-- The response handed back by the initial urlopen, as the constructor
inspects it: handle, get_total_length, is_chunked, get_range's start
(none when the response carries no content-range), is_range_request. -/
structure OpenResponse where
  handle : Handle
  totalLength : Option Nat
  chunked : Bool
  rangeStart : Option Nat
  isRangeResp : Bool
  deriving DecidableEq

namespace HTTPFileReader

def tell (s : HState) : Nat :=
  if s.file_can_tell then
    if s.start ≥ s.length then s.start else s.start + s.response.pos
  else s.start

/-- HTTPFileReader.__init__ after the initial urlopen returned `resp`
(header-string assembly is below the byte level of this model). -/
def init (resp : OpenResponse) (start : Int) (seek_threshold : Int)
    (canTell : Bool) : Except Err HState :=
  if start ≠ 0 then
    match resp.rangeStart with
    | none => .error .espipeNonSeekable
    | some rs =>
      .ok { length := resp.totalLength.getD 0
            chunked := resp.chunked
            start := rs
            closed := false
            seek_threshold := (max seek_threshold 0).toNat
            _seekable := resp.isRangeResp
            file_can_tell := canTell
            response := resp.handle
            opens := 0 }
  else
    .ok { length := resp.totalLength.getD 0
          chunked := resp.chunked
          start := 0
          closed := false
          seek_threshold := (max seek_threshold 0).toNat
          _seekable := resp.isRangeResp
          file_can_tell := canTell
          response := resp.handle
          opens := 0 }

def close (s : HState) : HState :=
  if s.closed then s else { s with response := s.response.close, closed := true }

/-- The absolute start offset reconnect resolves from its argument
(0 on the non-seekable path, which is only reached when no error is raised). -/
def reconnectResolve (s : HState) (start? : Option Int) : Nat :=
  if s._seekable = false then 0
  else match start? with
    | none => HTTPFileReader.tell s
    | some k =>
      if k < 0 then
        (if (s.length : Int) + k < 0 then 0 else ((s.length : Int) + k).toNat)
      else k.toNat

def reconnect (w : World) (s : HState) (start? : Option Int) :
    HState × Except Err Nat :=
  if !s._seekable && (match start? with
      | none => HTTPFileReader.tell s != 0
      | some k => k != 0) then
    (s, .error .reconnectUnsupported)
  else
    let start := reconnectResolve s start?
    if start ≥ s.length then
      ({ s with start := start }, .ok start)
    else
      let s₁ := { s with response := s.response.close }
      let (h, lengthNew) := w.openAt start
      if some s₁.length ≠ lengthNew then
        ({ s₁ with opens := s₁.opens + 1 }, .error .sizeChanged)
      else
        ({ s₁ with response := h, start := start, closed := false,
                   opens := s₁.opens + 1 }, .ok start)

def read (w : World) (s : HState) (size : Int) :
    HState × Except Err (List Nat) :=
  if s.closed then (s, .error .closedFile)
  else if size = 0 ∨ (s.chunked = false ∧ HTTPFileReader.tell s ≥ s.length) then (s, .ok [])
  else
    match (if file_closed s then reconnect w s none else (s, .ok 0)) with
    | (s₁, .error e) => (s₁, .error e)
    | (s₁, .ok _) =>
      let (data, h) := s₁.response.read (if size < 0 then none else some size.toNat)
      let s₂ := { s₁ with response := h }
      let s₃ := if data.isEmpty then s₂ else s₂._add_start data.length
      (s₃, .ok data)

def readinto (w : World) (s : HState) (bufsize : Nat) :
    HState × Except Err Nat :=
  if s.closed then (s, .error .closedFile)
  else if bufsize = 0 ∨ (s.chunked = false ∧ HTTPFileReader.tell s ≥ s.length) then (s, .ok 0)
  else
    match (if file_closed s then reconnect w s none else (s, .ok 0)) with
    | (s₁, .error e) => (s₁, .error e)
    | (s₁, .ok _) =>
      let (n, h) := s₁.response.readinto bufsize
      let s₂ := { s₁ with response := h }
      let s₃ := if n = 0 then s₂ else s₂._add_start n
      (s₃, .ok n)

def readline (w : World) (s : HState) (size : Int) :
    HState × Except Err (List Nat) :=
  if s.closed then (s, .error .closedFile)
  else if size = 0 ∨ (s.chunked = false ∧ HTTPFileReader.tell s ≥ s.length) then (s, .ok [])
  else
    match (if file_closed s then reconnect w s none else (s, .ok 0)) with
    | (s₁, .error e) => (s₁, .error e)
    | (s₁, .ok _) =>
      let (data, h) := s₁.response.readline (if size < 0 then none else some size.toNat)
      let s₂ := { s₁ with response := h }
      let s₃ := if data.isEmpty then s₂ else s₂._add_start data.length
      (s₃, .ok data)

def readlines (w : World) (s : HState) (hint : Int) :
    HState × Except Err (List (List Nat)) :=
  if s.closed then (s, .error .closedFile)
  else if s.chunked = false ∧ HTTPFileReader.tell s ≥ s.length then (s, .ok [])
  else
    match (if file_closed s then reconnect w s none else (s, .ok 0)) with
    | (s₁, .error e) => (s₁, .error e)
    | (s₁, .ok _) =>
      let (ls, h) := s₁.response.readlines hint
      let s₂ := { s₁ with response := h }
      let s₃ := if ls.isEmpty then s₂ else s₂._add_start ((ls.map List.length).sum)
      (s₃, .ok ls)

/-- seek's discard-read: the source's while loop runs exactly
(size - 1) / COPY_BUFSIZE iterations of readinto(COPY_BUFSIZE), decrementing
size by COPY_BUFSIZE each time, and finishes with read(size); modelled by
structural recursion on the iteration count. -/
def discardGo (w : World) : Nat → HState → Nat → HState × Except Err Unit
  | 0, s, size =>
    (match read w s (size : Int) with
     | (s₁, .ok _) => (s₁, .ok ())
     | (s₁, .error e) => (s₁, .error e))
  | k + 1, s, size =>
    (match readinto w s COPY_BUFSIZE with
     | (s₁, .ok _) => discardGo w k s₁ (size - COPY_BUFSIZE)
     | (s₁, .error e) => (s₁, .error e))

def discardLoop (w : World) (s : HState) (size : Nat) : HState × Except Err Unit :=
  discardGo w ((size - 1) / COPY_BUFSIZE) s size

/-- seek with whence = 0, after the closed/seekable checks. -/
def seekCore (w : World) (s : HState) (pos : Int) : HState × Except Err Int :=
  if pos < 0 then (s, .error .negativeSeek)
  else if (HTTPFileReader.tell s : Int) = pos then (s, .ok pos)
  else if (HTTPFileReader.tell s : Int) < pos ∧
      pos - (HTTPFileReader.tell s : Int) ≤ (s.seek_threshold : Int) then
    match discardLoop w s (pos - (HTTPFileReader.tell s : Int)).toNat with
    | (s₁, .ok _) => (s₁, .ok pos)
    | (s₁, .error e) => (s₁, .error e)
  else
    match reconnect w s (some pos) with
    | (s₁, .ok _) => (s₁, .ok pos)
    | (s₁, .error e) => (s₁, .error e)

/-- seek; the source's whence = 1 and 2 arms recurse into seek with
whence = 0 on a state whose closed/seekable fields are unchanged, which is
seekCore. -/
def seek (w : World) (s : HState) (pos : Int) (whence : Nat) :
    HState × Except Err Int :=
  if s.closed then (s, .error .closedFile)
  else if s._seekable = false then (s, .error .notSeekableStream)
  else if whence = 0 then seekCore w s pos
  else if whence = 1 then
    if pos = 0 then (s, .ok (HTTPFileReader.tell s)) else seekCore w s ((HTTPFileReader.tell s : Int) + pos)
  else if whence = 2 then seekCore w s ((s.length : Int) + pos)
  else (s, .error .badWhence)

end HTTPFileReader

namespace AsyncHTTPFileReader

/- AsyncHTTPFileReader re-implements reconnect, the read family and seek with
the same algorithmic content, awaiting at each transport touch; suspension
is erased at this byte level, so each operation is translated line by line
from the async source (lines 624-739) as a plain function. tell,
_add_start, file_closed and the handle operations are inherited from the
synchronous class in the source and shared here. -/

def reconnect (w : World) (s : HState) (start? : Option Int) :
    HState × Except Err Nat :=
  if !s._seekable && (match start? with
      | none => HTTPFileReader.tell s != 0
      | some k => k != 0) then
    (s, .error .reconnectUnsupported)
  else
    let start : Nat :=
      if s._seekable = false then 0
      else match start? with
        | none => HTTPFileReader.tell s
        | some k =>
          if k < 0 then
            (if (s.length : Int) + k < 0 then 0 else ((s.length : Int) + k).toNat)
          else k.toNat
    if start ≥ s.length then
      ({ s with start := start }, .ok start)
    else
      let s₁ := { s with response := s.response.close }
      let (h, lengthNew) := w.openAt start
      if some s₁.length ≠ lengthNew then
        ({ s₁ with opens := s₁.opens + 1 }, .error .sizeChanged)
      else
        ({ s₁ with response := h, start := start, closed := false,
                   opens := s₁.opens + 1 }, .ok start)

def read (w : World) (s : HState) (size : Int) :
    HState × Except Err (List Nat) :=
  if s.closed then (s, .error .closedFile)
  else if size = 0 ∨ (s.chunked = false ∧ HTTPFileReader.tell s ≥ s.length) then (s, .ok [])
  else
    match (if file_closed s then reconnect w s none else (s, .ok 0)) with
    | (s₁, .error e) => (s₁, .error e)
    | (s₁, .ok _) =>
      let (data, h) := s₁.response.read (if size < 0 then none else some size.toNat)
      let s₂ := { s₁ with response := h }
      let s₃ := if data.isEmpty then s₂ else s₂._add_start data.length
      (s₃, .ok data)

def readinto (w : World) (s : HState) (bufsize : Nat) :
    HState × Except Err Nat :=
  if s.closed then (s, .error .closedFile)
  else if bufsize = 0 ∨ (s.chunked = false ∧ HTTPFileReader.tell s ≥ s.length) then (s, .ok 0)
  else
    match (if file_closed s then reconnect w s none else (s, .ok 0)) with
    | (s₁, .error e) => (s₁, .error e)
    | (s₁, .ok _) =>
      let (n, h) := s₁.response.readinto bufsize
      let s₂ := { s₁ with response := h }
      let s₃ := if n = 0 then s₂ else s₂._add_start n
      (s₃, .ok n)

def readline (w : World) (s : HState) (size : Int) :
    HState × Except Err (List Nat) :=
  if s.closed then (s, .error .closedFile)
  else if size = 0 ∨ (s.chunked = false ∧ HTTPFileReader.tell s ≥ s.length) then (s, .ok [])
  else
    match (if file_closed s then reconnect w s none else (s, .ok 0)) with
    | (s₁, .error e) => (s₁, .error e)
    | (s₁, .ok _) =>
      let (data, h) := s₁.response.readline (if size < 0 then none else some size.toNat)
      let s₂ := { s₁ with response := h }
      let s₃ := if data.isEmpty then s₂ else s₂._add_start data.length
      (s₃, .ok data)

def readlines (w : World) (s : HState) (hint : Int) :
    HState × Except Err (List (List Nat)) :=
  if s.closed then (s, .error .closedFile)
  else if s.chunked = false ∧ HTTPFileReader.tell s ≥ s.length then (s, .ok [])
  else
    match (if file_closed s then reconnect w s none else (s, .ok 0)) with
    | (s₁, .error e) => (s₁, .error e)
    | (s₁, .ok _) =>
      let (ls, h) := s₁.response.readlines hint
      let s₂ := { s₁ with response := h }
      let s₃ := if ls.isEmpty then s₂ else s₂._add_start ((ls.map List.length).sum)
      (s₃, .ok ls)

def discardGo (w : World) : Nat → HState → Nat → HState × Except Err Unit
  | 0, s, size =>
    (match read w s (size : Int) with
     | (s₁, .ok _) => (s₁, .ok ())
     | (s₁, .error e) => (s₁, .error e))
  | k + 1, s, size =>
    (match readinto w s COPY_BUFSIZE with
     | (s₁, .ok _) => discardGo w k s₁ (size - COPY_BUFSIZE)
     | (s₁, .error e) => (s₁, .error e))

def discardLoop (w : World) (s : HState) (size : Nat) : HState × Except Err Unit :=
  discardGo w ((size - 1) / COPY_BUFSIZE) s size

def seekCore (w : World) (s : HState) (pos : Int) : HState × Except Err Int :=
  if pos < 0 then (s, .error .negativeSeek)
  else if (HTTPFileReader.tell s : Int) = pos then (s, .ok pos)
  else if (HTTPFileReader.tell s : Int) < pos ∧
      pos - (HTTPFileReader.tell s : Int) ≤ (s.seek_threshold : Int) then
    match discardLoop w s (pos - (HTTPFileReader.tell s : Int)).toNat with
    | (s₁, .ok _) => (s₁, .ok pos)
    | (s₁, .error e) => (s₁, .error e)
  else
    match reconnect w s (some pos) with
    | (s₁, .ok _) => (s₁, .ok pos)
    | (s₁, .error e) => (s₁, .error e)

def seek (w : World) (s : HState) (pos : Int) (whence : Nat) :
    HState × Except Err Int :=
  if s.closed then (s, .error .closedFile)
  else if s._seekable = false then (s, .error .notSeekableStream)
  else if whence = 0 then seekCore w s pos
  else if whence = 1 then
    if pos = 0 then (s, .ok (HTTPFileReader.tell s)) else seekCore w s ((HTTPFileReader.tell s : Int) + pos)
  else if whence = 2 then seekCore w s ((s.length : Int) + pos)
  else (s, .error .badWhence)

end AsyncHTTPFileReader

/-- A seekable, non-chunked stream in the OPEN state over the fixed resource
`content`: the recorded length is the resource length, the bound handle is
open onto the same resource, and the position accounting matches the
accounting source in use (transport tell versus accumulated start). -/
def WF (content : List Nat) (s : HState) : Prop :=
  s.length = content.length ∧ s.chunked = false ∧ s._seekable = true ∧
  s.closed = false ∧ s.response.content = content ∧ s.response.closed = false ∧
  s.response.off + s.response.pos ≤ content.length ∧
  (s.file_can_tell = true → s.response.off = s.start) ∧
  (s.file_can_tell = false → s.start = s.response.off + s.response.pos)

instance (content : List Nat) (s : HState) : Decidable (WF content s) := by
  unfold WF; infer_instance

/-- The state fields that an in-place read (one that does not reconnect)
never changes. -/
def Untouched (s s' : HState) : Prop :=
  s'.length = s.length ∧ s'.chunked = s.chunked ∧ s'._seekable = s._seekable ∧
  s'.file_can_tell = s.file_can_tell ∧ s'.seek_threshold = s.seek_threshold ∧
  s'.closed = s.closed ∧ s'.opens = s.opens ∧
  s'.response.closed = s.response.closed ∧
  s'.response.content = s.response.content ∧
  s'.response.off = s.response.off

/-- A freshly constructed stream at offset 0 whose handle is open, excluding
the one accounting hole (chunked transfer, transport-tracked position,
recorded length 0). -/
def AccInit (s : HState) : Prop :=
  s.start = 0 ∧ s.response.pos = 0 ∧ s.closed = false ∧
  s.response.closed = false ∧
  ¬(s.chunked = true ∧ s.file_can_tell = true ∧ s.length = 0)

instance (s : HState) : Decidable (AccInit s) := by
  unfold AccInit; infer_instance

/-- The part of AccInit preserved by every read-family call. -/
def AccInv (s : HState) : Prop :=
  s.closed = false ∧ s.response.closed = false ∧
  (s.file_can_tell = true → s.start = 0) ∧
  ¬(s.chunked = true ∧ s.file_can_tell = true ∧ s.length = 0)

instance (s : HState) : Decidable (AccInv s) := by
  unfold AccInv; infer_instance

/-- One call of the read family, for stating properties of arbitrary call
sequences. -/
inductive ReadOp where
  | read (size : Int)
  | readinto (bufsize : Nat)
  | readline (size : Int)
  | readlines (hint : Int)

/-- Run one read-family call, reporting the number of bytes it delivered. -/
def runRead (w : World) (s : HState) : ReadOp → HState × Except Err Nat
  | .read n =>
    let (s', r) := HTTPFileReader.read w s n
    (s', r.map List.length)
  | .readinto b => HTTPFileReader.readinto w s b
  | .readline n =>
    let (s', r) := HTTPFileReader.readline w s n
    (s', r.map List.length)
  | .readlines hint =>
    let (s', r) := HTTPFileReader.readlines w s hint
    (s', r.map (fun ls => (ls.map List.length).sum))

/-- Run a sequence of read-family calls, totalling the bytes delivered. -/
def runReads (w : World) : HState → List ReadOp → HState × Except Err Nat
  | s, [] => (s, .ok 0)
  | s, op :: ops =>
    match runRead w s op with
    | (s', .error e) => (s', .error e)
    | (s', .ok d) =>
      match runReads w s' ops with
      | (s'', .error e) => (s'', .error e)
      | (s'', .ok t) => (s'', .ok (d + t))

theorem Untouched.rfl (s : HState) : Untouched s s :=
  ⟨Eq.refl _, Eq.refl _, Eq.refl _, Eq.refl _, Eq.refl _, Eq.refl _, Eq.refl _,
   Eq.refl _, Eq.refl _, Eq.refl _⟩

theorem Untouched.trans {a b c : HState} (h₁ : Untouched a b) (h₂ : Untouched b c) :
    Untouched a c := by
  obtain ⟨u1, u2, u3, u4, u5, u6, u7, u8, u9, u10⟩ := h₁
  obtain ⟨v1, v2, v3, v4, v5, v6, v7, v8, v9, v10⟩ := h₂
  exact ⟨v1.trans u1, v2.trans u2, v3.trans u3, v4.trans u4, v5.trans u5,
         v6.trans u6, v7.trans u7, v8.trans u8, v9.trans u9, v10.trans u10⟩


theorem tell_eq_handle {content : List Nat} {s : HState} (hwf : WF content s) :
    HTTPFileReader.tell s = s.response.off + s.response.pos := by
  obtain ⟨h1, h2, h3, h4, h5, h6, h7, h8, h9⟩ := hwf
  unfold HTTPFileReader.tell
  by_cases hft : s.file_can_tell = true
  · have hoff := h8 hft
    by_cases hge : s.start ≥ s.length
    · simp only [hft, if_true, hge, if_pos]
      omega
    · simp only [hft, if_true, if_neg hge]
      omega
  · have hft' : s.file_can_tell = false := by
      revert hft; cases s.file_can_tell <;> simp
    have h9' := h9 hft'
    simp only [hft', Bool.false_eq_true, if_false]
    omega

theorem tell_le {content : List Nat} {s : HState} (hwf : WF content s) :
    HTTPFileReader.tell s ≤ content.length := by
  rw [tell_eq_handle hwf]
  exact hwf.2.2.2.2.2.2.1

theorem read_step (w : World) (s : HState) (size : Int)
    (h4 : s.closed = false) (h6 : s.response.closed = false)
    (hcond : ¬(size = 0 ∨ (s.chunked = false ∧ HTTPFileReader.tell s ≥ s.length))) :
    HTTPFileReader.read w s size =
      (let data := if size < 0 then s.response.avail else s.response.avail.take size.toNat
       let A : HState :=
        { s with response := { s.response with
                               pos := s.response.pos + data.length,
                               log := s.response.log ++ [data.length] } }
       ((if data.isEmpty then A else A._add_start data.length), .ok data)) := by
  unfold HTTPFileReader.read
  simp only [h4, Bool.false_eq_true, if_false, if_neg hcond, file_closed, h6]
  by_cases hsn : size < 0
  · simp only [if_pos hsn, Handle.read, h6]
  · simp only [if_neg hsn, Handle.read, h6]

theorem readinto_step (w : World) (s : HState) (bufsize : Nat)
    (h4 : s.closed = false) (h6 : s.response.closed = false)
    (hcond : ¬(bufsize = 0 ∨ (s.chunked = false ∧ HTTPFileReader.tell s ≥ s.length))) :
    HTTPFileReader.readinto w s bufsize =
      (let data := s.response.avail.take bufsize
       let A : HState :=
        { s with response := { s.response with
                               pos := s.response.pos + data.length,
                               log := s.response.log ++ [data.length] } }
       ((if data.length = 0 then A else A._add_start data.length), .ok data.length)) := by
  unfold HTTPFileReader.readinto
  simp only [h4, Bool.false_eq_true, if_false, if_neg hcond, file_closed, h6]
  simp only [Handle.readinto, h6]

theorem readline_step (w : World) (s : HState) (size : Int)
    (h4 : s.closed = false) (h6 : s.response.closed = false)
    (hcond : ¬(size = 0 ∨ (s.chunked = false ∧ HTTPFileReader.tell s ≥ s.length))) :
    HTTPFileReader.readline w s size =
      (let data := if size < 0 then Handle.takeLine s.response.avail
                   else (Handle.takeLine s.response.avail).take size.toNat
       let A : HState :=
        { s with response := { s.response with
                               pos := s.response.pos + data.length,
                               log := s.response.log ++ [data.length] } }
       ((if data.isEmpty then A else A._add_start data.length), .ok data)) := by
  unfold HTTPFileReader.readline
  simp only [h4, Bool.false_eq_true, if_false, if_neg hcond, file_closed, h6]
  by_cases hsn : size < 0
  · simp only [if_pos hsn, Handle.readline, h6]
  · simp only [if_neg hsn, Handle.readline, h6]

theorem readlines_step (w : World) (s : HState) (hint : Int)
    (h4 : s.closed = false) (h6 : s.response.closed = false)
    (hcond : ¬(s.chunked = false ∧ HTTPFileReader.tell s ≥ s.length)) :
    HTTPFileReader.readlines w s hint =
      (let ls := Handle.takeHint (Handle.linesOf s.response.avail) hint
       let total := (ls.map List.length).sum
       let A : HState :=
        { s with response := { s.response with
                               pos := s.response.pos + total,
                               log := s.response.log ++ [total] } }
       ((if ls.isEmpty then A else A._add_start total), .ok ls)) := by
  unfold HTTPFileReader.readlines
  simp only [h4, Bool.false_eq_true, if_false, if_neg hcond, file_closed, h6]
  simp only [Handle.readlines, h6]

theorem read_empty (w : World) (s : HState) (size : Int)
    (h4 : s.closed = false)
    (hcond : size = 0 ∨ (s.chunked = false ∧ HTTPFileReader.tell s ≥ s.length)) :
    HTTPFileReader.read w s size = (s, .ok []) := by
  unfold HTTPFileReader.read
  simp only [h4, Bool.false_eq_true, if_false, if_pos hcond]

theorem readinto_empty (w : World) (s : HState) (bufsize : Nat)
    (h4 : s.closed = false)
    (hcond : bufsize = 0 ∨ (s.chunked = false ∧ HTTPFileReader.tell s ≥ s.length)) :
    HTTPFileReader.readinto w s bufsize = (s, .ok 0) := by
  unfold HTTPFileReader.readinto
  simp only [h4, Bool.false_eq_true, if_false, if_pos hcond]

theorem readline_empty (w : World) (s : HState) (size : Int)
    (h4 : s.closed = false)
    (hcond : size = 0 ∨ (s.chunked = false ∧ HTTPFileReader.tell s ≥ s.length)) :
    HTTPFileReader.readline w s size = (s, .ok []) := by
  unfold HTTPFileReader.readline
  simp only [h4, Bool.false_eq_true, if_false, if_pos hcond]

theorem readlines_empty (w : World) (s : HState) (hint : Int)
    (h4 : s.closed = false)
    (hcond : s.chunked = false ∧ HTTPFileReader.tell s ≥ s.length) :
    HTTPFileReader.readlines w s hint = (s, .ok []) := by
  unfold HTTPFileReader.readlines
  simp only [h4, Bool.false_eq_true, if_false, if_pos hcond]

theorem read_ok {content : List Nat} {s : HState} (n : Nat) (hwf : WF content s) :
    ∃ s', HTTPFileReader.read (World.fixed content) s (n : Int) =
        (s', .ok ((content.drop (HTTPFileReader.tell s)).take n)) ∧
      WF content s' ∧ Untouched s s' ∧
      HTTPFileReader.tell s' =
        HTTPFileReader.tell s + min n (content.length - HTTPFileReader.tell s) ∧
      ∃ extra, s'.response.log = s.response.log ++ extra ∧ ∀ c ∈ extra, c ≤ n := by
  have htell := tell_eq_handle hwf
  have hwf' := hwf
  obtain ⟨h1, h2, h3, h4, h5, h6, h7, h8, h9⟩ := hwf
  by_cases hc : (n : Int) = 0 ∨ (s.chunked = false ∧ HTTPFileReader.tell s ≥ s.length)
  · refine ⟨s, ?_, hwf', Untouched.rfl s, ?_, [], by simp, by simp⟩
    · rw [read_empty (World.fixed content) s (n : Int) h4 hc]
      rcases hc with hc | ⟨_, hc⟩
      · have hn : n = 0 := by exact_mod_cast hc
        subst hn
        simp
      · have hL : HTTPFileReader.tell s = content.length := by omega
        rw [hL, List.drop_length]
        simp
    · rcases hc with hc | ⟨_, hc⟩
      · have hn : n = 0 := by exact_mod_cast hc
        subst hn
        simp
      · have hL : HTTPFileReader.tell s = content.length := by omega
        omega
  · have hn0 : n ≠ 0 := by
      intro h
      exact hc (Or.inl (by exact_mod_cast h))
    have hlt : HTTPFileReader.tell s < s.length := by
      by_contra hge
      exact hc (Or.inr ⟨h2, by omega⟩)
    rw [read_step (World.fixed content) s (n : Int) h4 h6 hc]
    have hsn : ¬((n : Int) < 0) := by omega
    simp only [if_neg hsn, Int.toNat_natCast, Handle.avail, h5]
    have hne : List.take n (List.drop (s.response.off + s.response.pos) content) ≠ [] := by
      intro hemp
      rcases List.take_eq_nil_iff.mp hemp with h | h
      · exact hn0 h
      · have := congrArg List.length h
        simp [List.length_drop] at this
        omega
    have hemp : (List.take n (List.drop (s.response.off + s.response.pos) content)).isEmpty = false := by
      rcases hl : List.take n (List.drop (s.response.off + s.response.pos) content) with _ | ⟨a, l⟩
      · exact absurd hl hne
      · rfl
    simp only [hemp, Bool.false_eq_true, if_false]
    have hdlen : (List.take n (List.drop (s.response.off + s.response.pos) content)).length
        = min n (content.length - (s.response.off + s.response.pos)) := by
      simp [List.length_take, List.length_drop]
    rw [htell]
    by_cases hft : s.file_can_tell = true
    · have hoff := h8 hft
      simp only [HState._add_start, hft, if_true]
      refine ⟨_, rfl, ?_, ?_, ?_, ?_⟩
      · exact ⟨h1, h2, h3, h4, rfl, h6, by simp only []; omega,
          fun _ => hoff, fun hff => absurd hff (by simp)⟩
      · exact ⟨rfl, rfl, rfl, hft.symm, rfl, rfl, rfl, rfl, h5.symm, rfl⟩
      · simp only [HTTPFileReader.tell, hft, if_true]
        have hni : ¬(s.start ≥ s.length) := by omega
        simp only [if_neg hni]
        omega
      · exact ⟨[(List.take n (List.drop (s.response.off + s.response.pos) content)).length],
          rfl, by simp [hdlen]⟩
    · have hft' : s.file_can_tell = false := by
        revert hft; cases s.file_can_tell <;> simp
      have h9' := h9 hft'
      simp only [HState._add_start, hft', Bool.false_eq_true, if_false]
      refine ⟨_, rfl, ?_, ?_, ?_, ?_⟩
      · exact ⟨h1, h2, h3, h4, rfl, h6, by simp only []; omega,
          fun htt => absurd htt (by simp), fun _ => by simp only []; omega⟩
      · exact ⟨rfl, rfl, rfl, hft'.symm, rfl, rfl, rfl, rfl, h5.symm, rfl⟩
      · simp only [HTTPFileReader.tell, hft', Bool.false_eq_true, if_false]
        omega
      · exact ⟨[(List.take n (List.drop (s.response.off + s.response.pos) content)).length],
          rfl, by simp [hdlen]⟩

theorem readinto_ok {content : List Nat} {s : HState} (bufsize : Nat) (hwf : WF content s) :
    ∃ s', HTTPFileReader.readinto (World.fixed content) s bufsize =
        (s', .ok (min bufsize (content.length - HTTPFileReader.tell s))) ∧
      WF content s' ∧ Untouched s s' ∧
      HTTPFileReader.tell s' =
        HTTPFileReader.tell s + min bufsize (content.length - HTTPFileReader.tell s) ∧
      ∃ extra, s'.response.log = s.response.log ++ extra ∧ ∀ c ∈ extra, c ≤ bufsize := by
  have htell := tell_eq_handle hwf
  have hwf' := hwf
  obtain ⟨h1, h2, h3, h4, h5, h6, h7, h8, h9⟩ := hwf
  by_cases hc : bufsize = 0 ∨ (s.chunked = false ∧ HTTPFileReader.tell s ≥ s.length)
  · refine ⟨s, ?_, hwf', Untouched.rfl s, ?_, [], by simp, by simp⟩
    · rw [readinto_empty (World.fixed content) s bufsize h4 hc]
      rcases hc with hc | ⟨_, hc⟩
      · subst hc
        simp
      · have hL : HTTPFileReader.tell s = content.length := by omega
        rw [hL]
        simp
    · rcases hc with hc | ⟨_, hc⟩
      · subst hc
        simp
      · have hL : HTTPFileReader.tell s = content.length := by omega
        omega
  · have hn0 : bufsize ≠ 0 := fun h => hc (Or.inl h)
    have hlt : HTTPFileReader.tell s < s.length := by
      by_contra hge
      exact hc (Or.inr ⟨h2, by omega⟩)
    rw [readinto_step (World.fixed content) s bufsize h4 h6 hc]
    simp only [Handle.avail, h5]
    have hdlen : (List.take bufsize (List.drop (s.response.off + s.response.pos) content)).length
        = min bufsize (content.length - (s.response.off + s.response.pos)) := by
      simp [List.length_take, List.length_drop]
    rw [hdlen]
    have hdne : ¬(min bufsize (content.length - (s.response.off + s.response.pos)) = 0) := by
      omega
    simp only [if_neg hdne]
    rw [htell]
    by_cases hft : s.file_can_tell = true
    · have hoff := h8 hft
      simp only [HState._add_start, hft, if_true]
      refine ⟨_, rfl, ?_, ?_, ?_, ?_⟩
      · exact ⟨h1, h2, h3, h4, rfl, h6, by simp only []; omega,
          fun _ => hoff, fun hff => absurd hff (by simp)⟩
      · exact ⟨rfl, rfl, rfl, hft.symm, rfl, rfl, rfl, rfl, h5.symm, rfl⟩
      · simp only [HTTPFileReader.tell, hft, if_true]
        have hni : ¬(s.start ≥ s.length) := by omega
        simp only [if_neg hni]
        omega
      · exact ⟨[min bufsize (content.length - (s.response.off + s.response.pos))],
          rfl, by simp⟩
    · have hft' : s.file_can_tell = false := by
        revert hft; cases s.file_can_tell <;> simp
      have h9' := h9 hft'
      simp only [HState._add_start, hft', Bool.false_eq_true, if_false]
      refine ⟨_, rfl, ?_, ?_, ?_, ?_⟩
      · exact ⟨h1, h2, h3, h4, rfl, h6, by simp only []; omega,
          fun htt => absurd htt (by simp), fun _ => by simp only []; omega⟩
      · exact ⟨rfl, rfl, rfl, hft'.symm, rfl, rfl, rfl, rfl, h5.symm, rfl⟩
      · simp only [HTTPFileReader.tell, hft', Bool.false_eq_true, if_false]
        omega
      · exact ⟨[min bufsize (content.length - (s.response.off + s.response.pos))],
          rfl, by simp⟩

theorem untouched_add_start (s : HState) (d : Nat) : Untouched s (s._add_start d) := by
  unfold HState._add_start
  split
  · exact Untouched.rfl s
  · exact ⟨rfl, rfl, rfl, rfl, rfl, rfl, rfl, rfl, rfl, rfl⟩

theorem add_start_response (s : HState) (d : Nat) :
    (s._add_start d).response = s.response := by
  unfold HState._add_start
  split <;> rfl

theorem read_lite (w : World) (s : HState) (n : Nat)
    (h4 : s.closed = false) (h6 : s.response.closed = false) :
    ∃ s' data, HTTPFileReader.read w s (n : Int) = (s', .ok data) ∧
      Untouched s s' ∧
      ∃ extra, s'.response.log = s.response.log ++ extra ∧ ∀ c ∈ extra, c ≤ n := by
  by_cases hc : (n : Int) = 0 ∨ (s.chunked = false ∧ HTTPFileReader.tell s ≥ s.length)
  · exact ⟨s, [], read_empty w s (n : Int) h4 hc, Untouched.rfl s, [], by simp, by simp⟩
  · rw [read_step w s (n : Int) h4 h6 hc]
    have hsn : ¬((n : Int) < 0) := by omega
    simp only [if_neg hsn, Int.toNat_natCast]
    have hb : (s.response.avail.take n).length ≤ n := by
      rw [List.length_take]; omega
    by_cases hie : (s.response.avail.take n).isEmpty = true
    · simp only [hie, if_true]
      exact ⟨_, _, rfl, ⟨rfl, rfl, rfl, rfl, rfl, rfl, rfl, rfl, rfl, rfl⟩,
        [(s.response.avail.take n).length], rfl, by simpa using hb⟩
    · have hie' : (s.response.avail.take n).isEmpty = false := by
        revert hie; cases (s.response.avail.take n).isEmpty <;> simp
      simp only [hie', Bool.false_eq_true, if_false]
      refine ⟨_, _, rfl,
        Untouched.trans ⟨rfl, rfl, rfl, rfl, rfl, rfl, rfl, rfl, rfl, rfl⟩
          (untouched_add_start _ _),
        [(s.response.avail.take n).length], ?_, by simpa using hb⟩
      rw [add_start_response]

theorem readinto_lite (w : World) (s : HState) (bufsize : Nat)
    (h4 : s.closed = false) (h6 : s.response.closed = false) :
    ∃ s' d, HTTPFileReader.readinto w s bufsize = (s', .ok d) ∧
      Untouched s s' ∧
      ∃ extra, s'.response.log = s.response.log ++ extra ∧ ∀ c ∈ extra, c ≤ bufsize := by
  by_cases hc : bufsize = 0 ∨ (s.chunked = false ∧ HTTPFileReader.tell s ≥ s.length)
  · exact ⟨s, 0, readinto_empty w s bufsize h4 hc, Untouched.rfl s, [], by simp, by simp⟩
  · rw [readinto_step w s bufsize h4 h6 hc]
    have hb : (s.response.avail.take bufsize).length ≤ bufsize := by
      rw [List.length_take]; omega
    by_cases hie : (s.response.avail.take bufsize).length = 0
    · simp only [hie, if_pos]
      exact ⟨_, _, rfl, ⟨rfl, rfl, rfl, rfl, rfl, rfl, rfl, rfl, rfl, rfl⟩,
        [0], rfl, by simp⟩
    · simp only [if_neg hie]
      refine ⟨_, _, rfl,
        Untouched.trans ⟨rfl, rfl, rfl, rfl, rfl, rfl, rfl, rfl, rfl, rfl⟩
          (untouched_add_start _ _),
        [(s.response.avail.take bufsize).length], ?_, by simpa using hb⟩
      rw [add_start_response]

theorem discardGo_ok (content : List Nat) (k : Nat) :
    ∀ (s : HState) (size : Nat), WF content s →
    HTTPFileReader.tell s + size ≤ content.length →
    (k = 0 ∨ k * COPY_BUFSIZE < size) →
    size ≤ (k + 1) * COPY_BUFSIZE →
    ∃ s', HTTPFileReader.discardGo (World.fixed content) k s size = (s', .ok ()) ∧
      WF content s' ∧ Untouched s s' ∧
      HTTPFileReader.tell s' = HTTPFileReader.tell s + size ∧
      ∃ extra, s'.response.log = s.response.log ++ extra ∧
        ∀ c ∈ extra, c ≤ COPY_BUFSIZE := by
  induction k with
  | zero =>
    intro s size hwf hle _ hk
    obtain ⟨s₁, heq, hwf₁, hunt₁, htell₁, extra₁, hlog₁, hb₁⟩ := read_ok size hwf
    refine ⟨s₁, ?_, hwf₁, hunt₁, ?_, extra₁, hlog₁, ?_⟩
    · simp only [HTTPFileReader.discardGo, heq]
    · omega
    · intro c hcmem
      have := hb₁ c hcmem
      have : COPY_BUFSIZE = 65536 := rfl
      omega
  | succ k ih =>
    intro s size hwf hle hlow hk
    have hCgt : size > COPY_BUFSIZE := by
      rcases hlow with h | h
      · cases h
      · have : COPY_BUFSIZE ≤ (k + 1) * COPY_BUFSIZE := by
          have : 1 ≤ k + 1 := by omega
          calc COPY_BUFSIZE = 1 * COPY_BUFSIZE := by omega
          _ ≤ (k + 1) * COPY_BUFSIZE := Nat.mul_le_mul_right _ this
        omega
    obtain ⟨s₁, heq, hwf₁, hunt₁, htell₁, extra₁, hlog₁, hb₁⟩ := readinto_ok COPY_BUFSIZE hwf
    have hmin : min COPY_BUFSIZE (content.length - HTTPFileReader.tell s) = COPY_BUFSIZE := by
      omega
    have htell₁' : HTTPFileReader.tell s₁ = HTTPFileReader.tell s + COPY_BUFSIZE := by
      omega
    obtain ⟨s₂, heq₂, hwf₂, hunt₂, htell₂, extra₂, hlog₂, hb₂⟩ :=
      ih s₁ (size - COPY_BUFSIZE) hwf₁ (by omega)
        (by
          rcases Nat.eq_zero_or_pos k with hz | hp
          · exact Or.inl hz
          · right
            have hstep : (k + 1) * COPY_BUFSIZE = k * COPY_BUFSIZE + COPY_BUFSIZE := by ring
            omega)
        (by
          have hstep : (k + 1 + 1) * COPY_BUFSIZE = (k + 1) * COPY_BUFSIZE + COPY_BUFSIZE := by
            ring
          omega)
    refine ⟨s₂, ?_, hwf₂, Untouched.trans hunt₁ hunt₂, by omega,
      extra₁ ++ extra₂, ?_, ?_⟩
    · simp only [HTTPFileReader.discardGo, heq, heq₂]
    · rw [hlog₂, hlog₁, List.append_assoc]
    · intro c hcmem
      rcases List.mem_append.mp hcmem with h | h
      · exact hb₁ c h
      · exact hb₂ c h

theorem discardLoop_ok (content : List Nat) (s : HState) (size : Nat)
    (hwf : WF content s)
    (hle : HTTPFileReader.tell s + size ≤ content.length) :
    ∃ s', HTTPFileReader.discardLoop (World.fixed content) s size = (s', .ok ()) ∧
      WF content s' ∧ Untouched s s' ∧
      HTTPFileReader.tell s' = HTTPFileReader.tell s + size ∧
      ∃ extra, s'.response.log = s.response.log ++ extra ∧
        ∀ c ∈ extra, c ≤ COPY_BUFSIZE := by
  unfold HTTPFileReader.discardLoop
  have hdm := Nat.div_add_mod (size - 1) COPY_BUFSIZE
  have hml : (size - 1) % COPY_BUFSIZE < COPY_BUFSIZE :=
    Nat.mod_lt _ (by norm_num [COPY_BUFSIZE])
  apply discardGo_ok content ((size - 1) / COPY_BUFSIZE) s size hwf hle
  · rcases Nat.eq_zero_or_pos ((size - 1) / COPY_BUFSIZE) with hz | hp
    · exact Or.inl hz
    · right
      have hmul := Nat.div_mul_le_self (size - 1) COPY_BUFSIZE
      have hsz : 1 ≤ size := by
        by_contra hsz
        have h0 : size = 0 := by omega
        subst h0
        simp [COPY_BUFSIZE] at hp
      simp only [COPY_BUFSIZE] at hmul ⊢
      omega
  · have hmul := Nat.div_mul_le_self (size - 1) COPY_BUFSIZE
    simp only [COPY_BUFSIZE] at hdm hml hmul ⊢
    omega

theorem discardGo_lite (w : World) (k : Nat) :
    ∀ (s : HState) (size : Nat), s.closed = false → s.response.closed = false →
    size ≤ (k + 1) * COPY_BUFSIZE →
    ∃ s', HTTPFileReader.discardGo w k s size = (s', .ok ()) ∧
      Untouched s s' ∧
      ∃ extra, s'.response.log = s.response.log ++ extra ∧
        ∀ c ∈ extra, c ≤ COPY_BUFSIZE := by
  induction k with
  | zero =>
    intro s size h4 h6 hk
    obtain ⟨s₁, data, heq, hunt₁, extra₁, hlog₁, hb₁⟩ := read_lite w s size h4 h6
    refine ⟨s₁, ?_, hunt₁, extra₁, hlog₁, ?_⟩
    · simp only [HTTPFileReader.discardGo, heq]
    · intro c hcmem
      have h1 := hb₁ c hcmem
      have h2 : (0 + 1) * COPY_BUFSIZE = COPY_BUFSIZE := by ring
      omega
  | succ k ih =>
    intro s size h4 h6 hk
    obtain ⟨s₁, d, heq, hunt₁, extra₁, hlog₁, hb₁⟩ := readinto_lite w s COPY_BUFSIZE h4 h6
    have h4₁ : s₁.closed = false := by rw [hunt₁.2.2.2.2.2.1]; exact h4
    have h6₁ : s₁.response.closed = false := by rw [hunt₁.2.2.2.2.2.2.2.1]; exact h6
    obtain ⟨s₂, heq₂, hunt₂, extra₂, hlog₂, hb₂⟩ :=
      ih s₁ (size - COPY_BUFSIZE) h4₁ h6₁
        (by
          have hstep : (k + 1 + 1) * COPY_BUFSIZE = (k + 1) * COPY_BUFSIZE + COPY_BUFSIZE := by
            ring
          omega)
    refine ⟨s₂, ?_, Untouched.trans hunt₁ hunt₂, extra₁ ++ extra₂, ?_, ?_⟩
    · simp only [HTTPFileReader.discardGo, heq, heq₂]
    · rw [hlog₂, hlog₁, List.append_assoc]
    · intro c hcmem
      rcases List.mem_append.mp hcmem with h | h
      · exact hb₁ c h
      · exact hb₂ c h

theorem discardLoop_lite (w : World) (s : HState) (size : Nat)
    (h4 : s.closed = false) (h6 : s.response.closed = false) :
    ∃ s', HTTPFileReader.discardLoop w s size = (s', .ok ()) ∧
      Untouched s s' ∧
      ∃ extra, s'.response.log = s.response.log ++ extra ∧
        ∀ c ∈ extra, c ≤ COPY_BUFSIZE := by
  unfold HTTPFileReader.discardLoop
  have hdm := Nat.div_add_mod (size - 1) COPY_BUFSIZE
  have hml : (size - 1) % COPY_BUFSIZE < COPY_BUFSIZE :=
    Nat.mod_lt _ (by norm_num [COPY_BUFSIZE])
  apply discardGo_lite w ((size - 1) / COPY_BUFSIZE) s size h4 h6
  simp only [COPY_BUFSIZE] at hdm hml ⊢
  omega

theorem reconnect_resolve_nonneg (s : HState) (k : Int)
    (hs : s._seekable = true) (hk : 0 ≤ k) :
    HTTPFileReader.reconnectResolve s (some k) = k.toNat := by
  unfold HTTPFileReader.reconnectResolve
  simp only [hs]
  have hkn : ¬(k < 0) := by omega
  simp [if_neg hkn]

theorem reconnect_resolve_neg (s : HState) (k : Int)
    (hs : s._seekable = true) (hk : k < 0) :
    HTTPFileReader.reconnectResolve s (some k) =
      (if (s.length : Int) + k < 0 then 0 else ((s.length : Int) + k).toNat) := by
  unfold HTTPFileReader.reconnectResolve
  simp [hs, hk]

theorem reconnect_guard_pass (w : World) (s : HState) (start? : Option Int)
    (hguard : (!s._seekable && (match start? with
      | none => HTTPFileReader.tell s != 0
      | some k => k != 0)) = false) :
    HTTPFileReader.reconnect w s start? =
      (let start := HTTPFileReader.reconnectResolve s start?
       if start ≥ s.length then
         ({ s with start := start }, .ok start)
       else
         let s₁ := { s with response := s.response.close }
         let (h, lengthNew) := w.openAt start
         if some s₁.length ≠ lengthNew then
           ({ s₁ with opens := s₁.opens + 1 }, .error .sizeChanged)
         else
           ({ s₁ with response := h, start := start, closed := false,
                      opens := s₁.opens + 1 }, .ok start)) := by
  unfold HTTPFileReader.reconnect
  rw [hguard]
  simp only [Bool.false_eq_true, if_false]

theorem reconnect_guard_pass_seekable (w : World) (s : HState) (start? : Option Int)
    (hs : s._seekable = true) :
    HTTPFileReader.reconnect w s start? =
      (let start := HTTPFileReader.reconnectResolve s start?
       if start ≥ s.length then
         ({ s with start := start }, .ok start)
       else
         let s₁ := { s with response := s.response.close }
         let (h, lengthNew) := w.openAt start
         if some s₁.length ≠ lengthNew then
           ({ s₁ with opens := s₁.opens + 1 }, .error .sizeChanged)
         else
           ({ s₁ with response := h, start := start, closed := false,
                      opens := s₁.opens + 1 }, .ok start)) := by
  apply reconnect_guard_pass
  rw [hs]
  rfl

theorem reconnect_detached (w : World) (s : HState) (start? : Option Int)
    (hs : s._seekable = true)
    (hge : HTTPFileReader.reconnectResolve s start? ≥ s.length) :
    HTTPFileReader.reconnect w s start? =
      ({ s with start := HTTPFileReader.reconnectResolve s start? },
       .ok (HTTPFileReader.reconnectResolve s start?)) := by
  rw [reconnect_guard_pass_seekable w s start? hs]
  simp only [ge_iff_le, hge, if_pos]

theorem reconnect_connect (w : World) (s : HState) (start? : Option Int)
    (hs : s._seekable = true)
    (hlt : HTTPFileReader.reconnectResolve s start? < s.length) :
    HTTPFileReader.reconnect w s start? =
      (if some s.length ≠ (w.openAt (HTTPFileReader.reconnectResolve s start?)).2 then
        ({ s with response := s.response.close, opens := s.opens + 1 }, .error .sizeChanged)
      else
        ({ s with response := (w.openAt (HTTPFileReader.reconnectResolve s start?)).1,
                  start := HTTPFileReader.reconnectResolve s start?, closed := false,
                  opens := s.opens + 1 }, .ok (HTTPFileReader.reconnectResolve s start?))) := by
  rw [reconnect_guard_pass_seekable w s start? hs]
  have hng : ¬(HTTPFileReader.reconnectResolve s start? ≥ s.length) := by omega
  simp only [ge_iff_le, if_neg (by omega : ¬(s.length ≤ HTTPFileReader.reconnectResolve s start?))]

theorem seek_whence0 (w : World) (s : HState) (pos : Int)
    (h4 : s.closed = false) (hs : s._seekable = true) :
    HTTPFileReader.seek w s pos 0 = HTTPFileReader.seekCore w s pos := by
  unfold HTTPFileReader.seek
  simp [h4, hs]

theorem tell_set_start_ge (s : HState) (T : Nat) (hge : T ≥ s.length) :
    HTTPFileReader.tell { s with start := T } = T := by
  show (if s.file_can_tell then (if T ≥ s.length then T else T + s.response.pos) else T) = T
  cases s.file_can_tell
  · rfl
  · simp [hge]

theorem fresh_handle_read (content : List Nat) (T N : Nat) :
    (((World.fixed content).openAt T).1.read (some N)).1 = (content.drop T).take N := by
  simp [World.fixed, Handle.read, Handle.avail]

theorem connected_wf (content : List Nat) (s : HState) (T : Nat)
    (hwf : WF content s) (hT : T ≤ content.length) :
    WF content { s with response := ((World.fixed content).openAt T).1, start := T,
                        closed := false, opens := s.opens + 1 } := by
  obtain ⟨h1, h2, h3, h4, h5, h6, h7, h8, h9⟩ := hwf
  refine ⟨h1, h2, h3, rfl, rfl, rfl, ?_, fun _ => rfl, fun _ => ?_⟩
  · show T + 0 ≤ content.length
    omega
  · show T = T + 0
    omega

/-- C1: on a seekable stream over a fixed-content resource of length L, for
any target T with T ≤ L and any read size N, seek(T, 0) returns T and the
following read(N) returns exactly the bytes a fresh connection opened at
byte offset T would return, regardless of the prior position and of whether
the seek was served by a discard-read or by a reconnect. -/
theorem seek_then_read_matches_fresh_connection
    (content : List Nat) (s : HState) (T N : Nat)
    (hwf : WF content s) (hT : T ≤ content.length) :
    ∃ s₁, HTTPFileReader.seek (World.fixed content) s (T : Int) 0 = (s₁, .ok (T : Int)) ∧
      (HTTPFileReader.read (World.fixed content) s₁ (N : Int)).2 =
        .ok ((((World.fixed content).openAt T).1.read (some N)).1) := by
  rw [fresh_handle_read]
  have h4 := hwf.2.2.2.1
  have hs := hwf.2.2.1
  have h2 := hwf.2.1
  have h1 := hwf.1
  rw [seek_whence0 _ _ _ h4 hs]
  unfold HTTPFileReader.seekCore
  have hTnn : ¬((T : Int) < 0) := by omega
  rw [if_neg hTnn]
  by_cases hPT : ((HTTPFileReader.tell s : Int) = (T : Int))
  · rw [if_pos hPT]
    have hPT' : HTTPFileReader.tell s = T := by exact_mod_cast hPT
    obtain ⟨s', heq, hwf', hunt', htl', hex'⟩ := read_ok N hwf
    refine ⟨s, rfl, ?_⟩
    rw [heq, hPT']
  · rw [if_neg hPT]
    by_cases hdisc : ((HTTPFileReader.tell s : Int) < (T : Int) ∧
        (T : Int) - (HTTPFileReader.tell s : Int) ≤ (s.seek_threshold : Int))
    · rw [if_pos hdisc]
      have hlt : HTTPFileReader.tell s < T := by exact_mod_cast hdisc.1
      have hsz : ((T : Int) - (HTTPFileReader.tell s : Int)).toNat
          = T - HTTPFileReader.tell s := by omega
      rw [hsz]
      obtain ⟨s₁, heq, hwf₁, hunt₁, htell₁, hex₁⟩ :=
        discardLoop_ok content s (T - HTTPFileReader.tell s) hwf (by omega)
      rw [heq]
      have htT : HTTPFileReader.tell s₁ = T := by omega
      obtain ⟨s₂, heq₂, hwf₂, hunt₂, htl₂, hex₂⟩ := read_ok N hwf₁
      refine ⟨s₁, rfl, ?_⟩
      rw [heq₂, htT]
    · rw [if_neg hdisc]
      have hres : HTTPFileReader.reconnectResolve s (some (T : Int)) = T := by
        rw [reconnect_resolve_nonneg s _ hs (by omega)]
        simp
      by_cases hTL : T ≥ s.length
      · rw [reconnect_detached (World.fixed content) s (some (T : Int)) hs
          (by rw [hres]; exact hTL), hres]
        refine ⟨_, rfl, ?_⟩
        have hTeq : T = content.length := by omega
        have htells₁ : HTTPFileReader.tell { s with start := T } = T :=
          tell_set_start_ge s T hTL
        rw [read_empty (World.fixed content) { s with start := T } (N : Int) h4
          (Or.inr ⟨h2, by rw [htells₁]; exact hTL⟩)]
        rw [hTeq, List.drop_length]
        simp
      · rw [reconnect_connect (World.fixed content) s (some (T : Int)) hs
          (by rw [hres]; omega), hres]
        have hnomis : ¬(some s.length ≠ ((World.fixed content).openAt T).2) := by
          show ¬(some s.length ≠ some content.length)
          rw [h1]
          simp
        rw [if_neg hnomis]
        refine ⟨_, rfl, ?_⟩
        have hwf₁ := connected_wf content s T hwf hT
        obtain ⟨s₂, heq₂, hwf₂, hunt₂, htl₂, hex₂⟩ := read_ok N hwf₁
        rw [heq₂]
        have htells₁ : HTTPFileReader.tell
            { s with response := ((World.fixed content).openAt T).1, start := T,
                     closed := false, opens := s.opens + 1 } = T := by
          rw [tell_eq_handle hwf₁]
          show T + 0 = T
          omega
        rw [htells₁]

theorem seek_then_read_matches_fresh_connection_witness :
    (WF [10, 11, 12, 13, 14, 15]
        ⟨6, false, 0, false, 3, true, true, ⟨[10, 11, 12, 13, 14, 15], 0, 0, false, []⟩, 0⟩ ∧
      4 ≤ ([10, 11, 12, 13, 14, 15] : List Nat).length) ∧
    (∃ s₁, HTTPFileReader.seek (World.fixed [10, 11, 12, 13, 14, 15])
        ⟨6, false, 0, false, 3, true, true, ⟨[10, 11, 12, 13, 14, 15], 0, 0, false, []⟩, 0⟩
        ((4 : Nat) : Int) 0 = (s₁, .ok ((4 : Nat) : Int)) ∧
      (HTTPFileReader.read (World.fixed [10, 11, 12, 13, 14, 15]) s₁ ((2 : Nat) : Int)).2 =
        .ok ((((World.fixed [10, 11, 12, 13, 14, 15]).openAt 4).1.read (some 2)).1)) :=
  ⟨⟨by decide, by decide⟩,
   seek_then_read_matches_fresh_connection [10, 11, 12, 13, 14, 15]
     ⟨6, false, 0, false, 3, true, true, ⟨[10, 11, 12, 13, 14, 15], 0, 0, false, []⟩, 0⟩
     4 2 (by decide) (by decide)⟩

/-- C2 (amended): on a seekable OPEN stream at position P, seek(T, 0) is a
no-op returning T when T = P; when T > P and T - P ≤ seek_threshold
(threshold boundary included) it discard-reads in place - no new transport
open, same handle, every discarded chunk at most COPY_BUFSIZE - and returns
T, with the position landing on T whenever T ≤ length; when T - P >
seek_threshold or T < P it takes the reconnect branch, returns T and leaves
the position at T. (The claim's unconditional "position equals T" fails for
a discard past end of resource, see the counterexample.) -/
theorem seek_policy_characterization (content : List Nat) (s : HState) (T : Nat)
    (hwf : WF content s) :
    (T = HTTPFileReader.tell s →
      HTTPFileReader.seek (World.fixed content) s (T : Int) 0 = (s, .ok (T : Int))) ∧
    (HTTPFileReader.tell s < T → T - HTTPFileReader.tell s ≤ s.seek_threshold →
      ∃ s', HTTPFileReader.seek (World.fixed content) s (T : Int) 0 = (s', .ok (T : Int)) ∧
        s'.opens = s.opens ∧ s'.response.off = s.response.off ∧
        (∃ extra, s'.response.log = s.response.log ++ extra ∧
          ∀ c ∈ extra, c ≤ COPY_BUFSIZE) ∧
        (T ≤ content.length → HTTPFileReader.tell s' = T)) ∧
    ((HTTPFileReader.tell s < T ∧ s.seek_threshold < T - HTTPFileReader.tell s) ∨
        T < HTTPFileReader.tell s →
      HTTPFileReader.seek (World.fixed content) s (T : Int) 0 =
        ((HTTPFileReader.reconnect (World.fixed content) s (some (T : Int))).1,
          .ok (T : Int)) ∧
      HTTPFileReader.tell (HTTPFileReader.seek (World.fixed content) s (T : Int) 0).1
        = T) := by
  have h1 := hwf.1
  have h2 := hwf.2.1
  have hs := hwf.2.2.1
  have h4 := hwf.2.2.2.1
  have h6 := hwf.2.2.2.2.2.1
  have h7 := hwf.2.2.2.2.2.2.1
  have htell := tell_eq_handle hwf
  have hTnn : ¬((T : Int) < 0) := by omega
  have hres : HTTPFileReader.reconnectResolve s (some (T : Int)) = T := by
    rw [reconnect_resolve_nonneg s _ hs (by omega)]
    simp
  refine ⟨?_, ?_, ?_⟩
  · intro hPT
    rw [seek_whence0 _ _ _ h4 hs]
    unfold HTTPFileReader.seekCore
    rw [if_neg hTnn, if_pos (by omega)]
  · intro hlt hthr
    rw [seek_whence0 _ _ _ h4 hs]
    unfold HTTPFileReader.seekCore
    rw [if_neg hTnn, if_neg (by omega), if_pos (by constructor <;> omega)]
    have hsz : ((T : Int) - (HTTPFileReader.tell s : Int)).toNat
        = T - HTTPFileReader.tell s := by omega
    rw [hsz]
    obtain ⟨s', heq, hunt, extra, hlog, hb⟩ :=
      discardLoop_lite (World.fixed content) s (T - HTTPFileReader.tell s) h4 h6
    obtain ⟨u1, u2, u3, u4, u5, u6, u7, u8, u9, u10⟩ := hunt
    refine ⟨s', ?_, u7, u10, ⟨extra, hlog, hb⟩, ?_⟩
    · rw [heq]
    · intro hTL
      obtain ⟨s'', heq'', hwf'', hunt'', htell'', hex''⟩ :=
        discardLoop_ok content s (T - HTTPFileReader.tell s) hwf (by omega)
      rw [heq] at heq''
      have hss : s' = s'' := congrArg Prod.fst heq''
      rw [hss]
      omega
  · intro hcase
    rw [seek_whence0 _ _ _ h4 hs]
    unfold HTTPFileReader.seekCore
    have hne : ¬((HTTPFileReader.tell s : Int) = (T : Int)) := by omega
    have hnd : ¬((HTTPFileReader.tell s : Int) < (T : Int) ∧
        (T : Int) - (HTTPFileReader.tell s : Int) ≤ (s.seek_threshold : Int)) := by
      rcases hcase with ⟨ha, hb⟩ | hc
      · intro ⟨_, hx⟩
        omega
      · intro ⟨hx, _⟩
        omega
    simp only [if_neg hTnn, if_neg hne, if_neg hnd]
    by_cases hTL : T ≥ s.length
    · rw [reconnect_detached (World.fixed content) s (some (T : Int)) hs
        (by rw [hres]; omega), hres]
      exact ⟨rfl, tell_set_start_ge s T hTL⟩
    · have hnomis : ¬(some s.length ≠ ((World.fixed content).openAt T).2) := by
        show ¬(some s.length ≠ some content.length)
        rw [h1]
        simp
      rw [reconnect_connect (World.fixed content) s (some (T : Int)) hs
        (by rw [hres]; omega), hres, if_neg hnomis]
      refine ⟨rfl, ?_⟩
      have hwf₁ := connected_wf content s T hwf (by omega)
      rw [tell_eq_handle hwf₁]
      show T + 0 = T
      omega

/-- C2 counterexample: a seekable OPEN stream over a 5-byte resource, already
at position 5, asked to seek(6, 0) with threshold 10: the discard branch is
taken (delta 1 ≤ 10), no error occurs, seek returns 6, yet the position
stays 5, contradicting "in every non-error case it leaves the position
equal to T". -/
theorem seek_discard_past_eof_position_mismatch :
    (HTTPFileReader.seek (World.fixed [0, 1, 2, 3, 4])
        ⟨5, false, 5, false, 10, true, false, ⟨[0, 1, 2, 3, 4], 0, 5, false, []⟩, 0⟩
        6 0).2 = .ok 6 ∧
    HTTPFileReader.tell (HTTPFileReader.seek (World.fixed [0, 1, 2, 3, 4])
        ⟨5, false, 5, false, 10, true, false, ⟨[0, 1, 2, 3, 4], 0, 5, false, []⟩, 0⟩
        6 0).1 = 5 :=
  ⟨rfl, rfl⟩

theorem seek_policy_characterization_witness :
    (WF [0, 1, 2, 3]
        ⟨4, false, 0, false, 10, true, true, ⟨[0, 1, 2, 3], 0, 0, false, []⟩, 0⟩ ∧
      HTTPFileReader.tell
        ⟨4, false, 0, false, 10, true, true, ⟨[0, 1, 2, 3], 0, 0, false, []⟩, 0⟩ < 3 ∧
      3 - HTTPFileReader.tell
        ⟨4, false, 0, false, 10, true, true, ⟨[0, 1, 2, 3], 0, 0, false, []⟩, 0⟩ ≤ 10) ∧
    (∃ s', HTTPFileReader.seek (World.fixed [0, 1, 2, 3])
        ⟨4, false, 0, false, 10, true, true, ⟨[0, 1, 2, 3], 0, 0, false, []⟩, 0⟩
        ((3 : Nat) : Int) 0 = (s', .ok ((3 : Nat) : Int)) ∧
      s'.opens = 0 ∧ s'.response.off = 0 ∧
      (∃ extra, s'.response.log = [] ++ extra ∧ ∀ c ∈ extra, c ≤ COPY_BUFSIZE) ∧
      (3 ≤ ([0, 1, 2, 3] : List Nat).length → HTTPFileReader.tell s' = 3)) :=
  ⟨⟨by decide, by decide, by decide⟩,
   (seek_policy_characterization [0, 1, 2, 3]
     ⟨4, false, 0, false, 10, true, true, ⟨[0, 1, 2, 3], 0, 0, false, []⟩, 0⟩ 3
     (by decide)).2.1 (by decide) (by decide)⟩

/-- C3 (amended): construction with a non-zero requested start whose initial
response carries no range confirmation raises an ESPIPE "non-seekable"
error instead of proceeding; when the response does confirm the range,
construction succeeds, adopts the confirmed range start, and records
seekability from is_range_request. -/
theorem init_nonzero_start_without_range_raises :
    (∀ (resp : OpenResponse) (start seek_threshold : Int) (canTell : Bool),
      start ≠ 0 → resp.rangeStart = none →
      HTTPFileReader.init resp start seek_threshold canTell
        = .error .espipeNonSeekable) ∧
    (∀ (resp : OpenResponse) (start seek_threshold : Int) (canTell : Bool) (rs : Nat),
      start ≠ 0 → resp.rangeStart = some rs →
      ∃ st, HTTPFileReader.init resp start seek_threshold canTell = .ok st ∧
        st.start = rs ∧ st._seekable = resp.isRangeResp ∧ st.closed = false) := by
  constructor
  · intro resp start thr ct hsz hr
    unfold HTTPFileReader.init
    rw [if_pos hsz, hr]
  · intro resp start thr ct rs hsz hr
    unfold HTTPFileReader.init
    rw [if_pos hsz, hr]
    exact ⟨_, rfl, rfl, rfl, rfl⟩

/-- C3 counterexample: a construction requesting start = 5 against a response
with no range confirmation raises (the claim said it succeeds and is merely
marked non-seekable). -/
theorem init_nonzero_start_without_range_raises_example :
    HTTPFileReader.init ⟨⟨[1, 2, 3], 0, 0, false, []⟩, some 3, false, none, false⟩
      5 1024 true = .error .espipeNonSeekable := rfl

theorem init_nonzero_start_without_range_raises_witness :
    (((-2 : Int) ≠ 0 ∧
        (⟨⟨[1, 2, 3], 0, 0, false, []⟩, some 3, false, none, false⟩
          : OpenResponse).rangeStart = none) ∧
      HTTPFileReader.init ⟨⟨[1, 2, 3], 0, 0, false, []⟩, some 3, false, none, false⟩
        (-2) 7 false = .error .espipeNonSeekable) ∧
    ((⟨⟨[1, 2, 3], 0, 0, false, []⟩, some 3, false, some 1, true⟩
        : OpenResponse).rangeStart = some 1 ∧
      ∃ st, HTTPFileReader.init ⟨⟨[1, 2, 3], 0, 0, false, []⟩, some 3, false, some 1, true⟩
        4 7 false = .ok st ∧ st.start = 1 ∧
        st._seekable = (⟨⟨[1, 2, 3], 0, 0, false, []⟩, some 3, false, some 1, true⟩
          : OpenResponse).isRangeResp ∧ st.closed = false) :=
  ⟨⟨⟨by decide, rfl⟩,
    init_nonzero_start_without_range_raises.1 _ _ _ _ (by decide) rfl⟩,
   ⟨rfl, init_nonzero_start_without_range_raises.2 _ _ _ _ 1 (by decide) rfl⟩⟩

/-- C4 (amended): close() is idempotent and leaves the stream closed; on a
closed stream every read-family call and every seek fails with the
closed-stream error. (The claim's inclusion of reconnect is refuted by the
counterexample: reconnect performs no closed check and can reopen the
stream.) -/
theorem closed_ops_fail_and_close_idempotent :
    (∀ s, HTTPFileReader.close (HTTPFileReader.close s) = HTTPFileReader.close s) ∧
    (∀ s, (HTTPFileReader.close s).closed = true) ∧
    (∀ (w : World) (s : HState), s.closed = true →
      (∀ size : Int, (HTTPFileReader.read w s size).2 = .error .closedFile) ∧
      (∀ b : Nat, (HTTPFileReader.readinto w s b).2 = .error .closedFile) ∧
      (∀ size : Int, (HTTPFileReader.readline w s size).2 = .error .closedFile) ∧
      (∀ hint : Int, (HTTPFileReader.readlines w s hint).2 = .error .closedFile) ∧
      (∀ (p : Int) (wh : Nat), (HTTPFileReader.seek w s p wh).2 = .error .closedFile)) := by
  refine ⟨?_, ?_, ?_⟩
  · intro s
    by_cases h : s.closed = true
    · simp [HTTPFileReader.close, h]
    · have h' : s.closed = false := by
        revert h; cases s.closed <;> simp
      simp [HTTPFileReader.close, h']
  · intro s
    by_cases h : s.closed = true
    · simp [HTTPFileReader.close, h]
    · have h' : s.closed = false := by
        revert h; cases s.closed <;> simp
      simp [HTTPFileReader.close, h']
  · intro w s h
    exact ⟨fun size => by simp [HTTPFileReader.read, h],
      fun b => by simp [HTTPFileReader.readinto, h],
      fun size => by simp [HTTPFileReader.readline, h],
      fun hint => by simp [HTTPFileReader.readlines, h],
      fun p wh => by simp [HTTPFileReader.seek, h]⟩

/-- C4 counterexample: on an already-closed seekable stream, reconnect(0)
succeeds (no closed-stream error), clears the closed flag, and installs a
fresh open handle - so not every post-close operation fails, and a closed
instance can come to hold an open transport handle again. -/
theorem reconnect_after_close_succeeds :
    (HTTPFileReader.reconnect (World.fixed [7, 8])
        ⟨2, false, 0, true, 5, true, true, ⟨[7, 8], 0, 0, true, []⟩, 0⟩ (some 0)).2
      = .ok 0 ∧
    (HTTPFileReader.reconnect (World.fixed [7, 8])
        ⟨2, false, 0, true, 5, true, true, ⟨[7, 8], 0, 0, true, []⟩, 0⟩ (some 0)).1.closed
      = false ∧
    (HTTPFileReader.reconnect (World.fixed [7, 8])
        ⟨2, false, 0, true, 5, true, true, ⟨[7, 8], 0, 0, true, []⟩, 0⟩
        (some 0)).1.response.closed = false :=
  ⟨rfl, rfl, rfl⟩

theorem closed_ops_fail_and_close_idempotent_witness :
    ((⟨1, false, 0, true, 5, true, true, ⟨[9], 0, 0, true, []⟩, 0⟩ : HState).closed
        = true) ∧
    (HTTPFileReader.read (World.fixed [9])
        ⟨1, false, 0, true, 5, true, true, ⟨[9], 0, 0, true, []⟩, 0⟩ 3).2
      = .error .closedFile ∧
    (HTTPFileReader.seek (World.fixed [9])
        ⟨1, false, 0, true, 5, true, true, ⟨[9], 0, 0, true, []⟩, 0⟩ 0 0).2
      = .error .closedFile :=
  ⟨rfl,
   (closed_ops_fail_and_close_idempotent.2.2 (World.fixed [9])
     ⟨1, false, 0, true, 5, true, true, ⟨[9], 0, 0, true, []⟩, 0⟩ rfl).1 3,
   (closed_ops_fail_and_close_idempotent.2.2 (World.fixed [9])
     ⟨1, false, 0, true, 5, true, true, ⟨[9], 0, 0, true, []⟩, 0⟩ rfl).2.2.2.2 0 0⟩

/-- C5 (amended): reconnect's branches never leave two handles, but the
detached branch (computed start ≥ recorded length) leaves the current
handle in place without closing it; only the connecting branch closes the
previous handle, before either installing the freshly opened one (on
success) or keeping the closed old handle (on length mismatch). -/
theorem reconnect_handle_discipline :
    ∀ (w : World) (s : HState) (k : Int), s._seekable = true → 0 ≤ k →
    (k.toNat ≥ s.length →
      HTTPFileReader.reconnect w s (some k)
        = ({ s with start := k.toNat }, .ok k.toNat)) ∧
    (k.toNat < s.length →
      ((w.openAt k.toNat).2 = some s.length →
        HTTPFileReader.reconnect w s (some k) =
          ({ s with response := (w.openAt k.toNat).1, start := k.toNat, closed := false,
                    opens := s.opens + 1 }, .ok k.toNat)) ∧
      ((w.openAt k.toNat).2 ≠ some s.length →
        HTTPFileReader.reconnect w s (some k) =
          ({ s with response := s.response.close, opens := s.opens + 1 },
            .error .sizeChanged))) := by
  intro w s k hs hk
  have hres := reconnect_resolve_nonneg s k hs hk
  constructor
  · intro hge
    rw [reconnect_detached w s (some k) hs (by rw [hres]; omega), hres]
  · intro hlt
    constructor
    · intro heq
      rw [reconnect_connect w s (some k) hs (by rw [hres]; omega), hres,
        if_neg (by rw [heq]; simp)]
    · intro hne
      rw [reconnect_connect w s (some k) hs (by rw [hres]; omega), hres,
        if_pos (Ne.symm hne)]

/-- C5 counterexample: reconnect(10) on a 5-byte seekable stream whose handle
is open takes the detached branch, succeeds, and leaves the previous handle
installed and still open - it is not released, contradicting the claim that
the transition to DETACHED closes any currently open handle. -/
theorem reconnect_detached_keeps_handle_open :
    (HTTPFileReader.reconnect (World.fixed [0, 1, 2, 3, 4])
        ⟨5, false, 2, false, 7, true, true, ⟨[0, 1, 2, 3, 4], 0, 2, false, []⟩, 0⟩
        (some 10)).2 = .ok 10 ∧
    (HTTPFileReader.reconnect (World.fixed [0, 1, 2, 3, 4])
        ⟨5, false, 2, false, 7, true, true, ⟨[0, 1, 2, 3, 4], 0, 2, false, []⟩, 0⟩
        (some 10)).1.response.closed = false ∧
    (HTTPFileReader.reconnect (World.fixed [0, 1, 2, 3, 4])
        ⟨5, false, 2, false, 7, true, true, ⟨[0, 1, 2, 3, 4], 0, 2, false, []⟩, 0⟩
        (some 10)).1.response = ⟨[0, 1, 2, 3, 4], 0, 2, false, []⟩ :=
  ⟨rfl, rfl, rfl⟩

theorem reconnect_handle_discipline_witness :
    HTTPFileReader.reconnect (World.fixed [5, 6])
        ⟨2, false, 0, false, 3, true, true, ⟨[5, 6], 0, 0, false, []⟩, 0⟩ (some 7)
      = (⟨2, false, 7, false, 3, true, true, ⟨[5, 6], 0, 0, false, []⟩, 0⟩, .ok 7) ∧
    HTTPFileReader.reconnect (World.fixed [5, 6])
        ⟨2, false, 0, false, 3, true, true, ⟨[5, 6], 0, 0, false, []⟩, 0⟩ (some 1)
      = (⟨2, false, 1, false, 3, true, true, ⟨[5, 6], 1, 0, false, []⟩, 1⟩, .ok 1) :=
  ⟨(reconnect_handle_discipline (World.fixed [5, 6])
      ⟨2, false, 0, false, 3, true, true, ⟨[5, 6], 0, 0, false, []⟩, 0⟩ 7
      rfl (by decide)).1 (by decide),
   ((reconnect_handle_discipline (World.fixed [5, 6])
      ⟨2, false, 0, false, 3, true, true, ⟨[5, 6], 0, 0, false, []⟩, 0⟩ 1
      rfl (by decide)).2 (by decide)).1 rfl⟩

/-- C6: a reconnect whose resolved start is below the recorded length but
whose fresh response reports a different total length fails with the
size-changed (EIO) error; the recorded length and start are unchanged and
the new response is not installed - the instance keeps its previous handle
(closed by the reconnect attempt). -/
theorem reconnect_length_mismatch_protocol_error :
    ∀ (w : World) (s : HState) (k : Int), s._seekable = true → 0 ≤ k →
    k.toNat < s.length → (w.openAt k.toNat).2 ≠ some s.length →
    (HTTPFileReader.reconnect w s (some k)).2 = .error .sizeChanged ∧
    (HTTPFileReader.reconnect w s (some k)).1.length = s.length ∧
    (HTTPFileReader.reconnect w s (some k)).1.start = s.start ∧
    (HTTPFileReader.reconnect w s (some k)).1.response = s.response.close := by
  intro w s k hs hk hlt hne
  have hres := reconnect_resolve_nonneg s k hs hk
  rw [reconnect_connect w s (some k) hs (by rw [hres]; omega), hres,
    if_pos (Ne.symm hne)]
  exact ⟨rfl, rfl, rfl, rfl⟩

theorem reconnect_length_mismatch_protocol_error_witness :
    ((1 : Int).toNat <
        (⟨3, false, 0, false, 5, true, true, ⟨[1, 2, 3], 0, 0, false, []⟩, 0⟩
          : HState).length ∧
      ((⟨fun st => (⟨[1, 2, 3], st, 0, false, []⟩, some 7)⟩ : World).openAt
          (1 : Int).toNat).2 ≠ some 3) ∧
    (HTTPFileReader.reconnect ⟨fun st => (⟨[1, 2, 3], st, 0, false, []⟩, some 7)⟩
        ⟨3, false, 0, false, 5, true, true, ⟨[1, 2, 3], 0, 0, false, []⟩, 0⟩
        (some 1)).2 = .error .sizeChanged ∧
    (HTTPFileReader.reconnect ⟨fun st => (⟨[1, 2, 3], st, 0, false, []⟩, some 7)⟩
        ⟨3, false, 0, false, 5, true, true, ⟨[1, 2, 3], 0, 0, false, []⟩, 0⟩
        (some 1)).1.length = 3 :=
  ⟨⟨by decide, by decide⟩,
   (reconnect_length_mismatch_protocol_error
      ⟨fun st => (⟨[1, 2, 3], st, 0, false, []⟩, some 7)⟩
      ⟨3, false, 0, false, 5, true, true, ⟨[1, 2, 3], 0, 0, false, []⟩, 0⟩
      1 rfl (by decide) (by decide) (by decide)).1,
   (reconnect_length_mismatch_protocol_error
      ⟨fun st => (⟨[1, 2, 3], st, 0, false, []⟩, some 7)⟩
      ⟨3, false, 0, false, 5, true, true, ⟨[1, 2, 3], 0, 0, false, []⟩, 0⟩
      1 rfl (by decide) (by decide) (by decide)).2.1⟩

/-- C7: reconnect with a negative target resolves the absolute start as
recorded length plus target, clamped below at 0; whenever the resolved
start is at or past the recorded length, reconnect only records the new
start and returns it, opening no connection, and on the resulting
non-chunked stream every read-family call returns an empty result
immediately with the state - open count included - unchanged. -/
theorem reconnect_negative_and_detached_fast_eof :
    ∀ (w : World) (s : HState) (k : Int), s._seekable = true → s.closed = false →
      s.chunked = false →
    (k < 0 → HTTPFileReader.reconnectResolve s (some k) =
      (if (s.length : Int) + k < 0 then 0 else ((s.length : Int) + k).toNat)) ∧
    (HTTPFileReader.reconnectResolve s (some k) ≥ s.length →
      HTTPFileReader.reconnect w s (some k) =
        ({ s with start := HTTPFileReader.reconnectResolve s (some k) },
          .ok (HTTPFileReader.reconnectResolve s (some k))) ∧
      (∀ n : Int, HTTPFileReader.read w
          { s with start := HTTPFileReader.reconnectResolve s (some k) } n =
        ({ s with start := HTTPFileReader.reconnectResolve s (some k) }, .ok [])) ∧
      (∀ b : Nat, HTTPFileReader.readinto w
          { s with start := HTTPFileReader.reconnectResolve s (some k) } b =
        ({ s with start := HTTPFileReader.reconnectResolve s (some k) }, .ok 0)) ∧
      (∀ n : Int, HTTPFileReader.readline w
          { s with start := HTTPFileReader.reconnectResolve s (some k) } n =
        ({ s with start := HTTPFileReader.reconnectResolve s (some k) }, .ok [])) ∧
      (∀ hint : Int, HTTPFileReader.readlines w
          { s with start := HTTPFileReader.reconnectResolve s (some k) } hint =
        ({ s with start := HTTPFileReader.reconnectResolve s (some k) }, .ok []))) := by
  intro w s k hs h4 h2
  constructor
  · intro hk
    exact reconnect_resolve_neg s k hs hk
  · intro hge
    have htl : HTTPFileReader.tell
        { s with start := HTTPFileReader.reconnectResolve s (some k) }
        = HTTPFileReader.reconnectResolve s (some k) :=
      tell_set_start_ge s _ hge
    refine ⟨reconnect_detached w s (some k) hs hge, ?_, ?_, ?_, ?_⟩
    · intro n
      exact read_empty w _ n h4 (Or.inr ⟨h2, by rw [htl]; exact hge⟩)
    · intro b
      exact readinto_empty w _ b h4 (Or.inr ⟨h2, by rw [htl]; exact hge⟩)
    · intro n
      exact readline_empty w _ n h4 (Or.inr ⟨h2, by rw [htl]; exact hge⟩)
    · intro hint
      exact readlines_empty w _ hint h4 ⟨h2, by rw [htl]; exact hge⟩

theorem reconnect_negative_and_detached_fast_eof_witness :
    ((-2 : Int) < 0 ∧
      HTTPFileReader.reconnectResolve
        ⟨0, false, 1, false, 5, true, false, ⟨[], 0, 0, false, []⟩, 0⟩ (some (-2)) ≥
        (⟨0, false, 1, false, 5, true, false, ⟨[], 0, 0, false, []⟩, 0⟩
          : HState).length) ∧
    (HTTPFileReader.reconnectResolve
        ⟨0, false, 1, false, 5, true, false, ⟨[], 0, 0, false, []⟩, 0⟩ (some (-2)) =
      (if ((0 : Nat) : Int) + (-2) < 0 then 0 else (((0 : Nat) : Int) + (-2)).toNat)) ∧
    HTTPFileReader.reconnect (World.fixed [])
        ⟨0, false, 1, false, 5, true, false, ⟨[], 0, 0, false, []⟩, 0⟩ (some (-2)) =
      (⟨0, false, 0, false, 5, true, false, ⟨[], 0, 0, false, []⟩, 0⟩, .ok 0) ∧
    HTTPFileReader.read (World.fixed [])
        ⟨0, false, 0, false, 5, true, false, ⟨[], 0, 0, false, []⟩, 0⟩ 5 =
      (⟨0, false, 0, false, 5, true, false, ⟨[], 0, 0, false, []⟩, 0⟩, .ok []) :=
  by
  have H := reconnect_negative_and_detached_fast_eof (World.fixed [])
    ⟨0, false, 1, false, 5, true, false, ⟨[], 0, 0, false, []⟩, 0⟩ (-2) rfl rfl rfl
  have H2 := H.2 (by decide)
  exact ⟨⟨by decide, by decide⟩, H.1 (by decide), H2.1, H2.2.1 5⟩

theorem acc_bump (s : HState) (d : Nat) (lg : List Nat) (c : Prop) [Decidable c]
    (hd : c → d = 0)
    (hst0 : s.file_can_tell = true → s.start = 0)
    (hlen : s.file_can_tell = true → 0 < s.length) :
    Untouched s (if c then
        { s with response := { s.response with pos := s.response.pos + d, log := lg } }
      else
        { s with response := { s.response with
            pos := s.response.pos + d, log := lg } }._add_start d) ∧
    (s.file_can_tell = true → (if c then
        { s with response := { s.response with pos := s.response.pos + d, log := lg } }
      else
        { s with response := { s.response with
            pos := s.response.pos + d, log := lg } }._add_start d).start = s.start) ∧
    HTTPFileReader.tell (if c then
        { s with response := { s.response with pos := s.response.pos + d, log := lg } }
      else
        { s with response := { s.response with
            pos := s.response.pos + d, log := lg } }._add_start d)
      = HTTPFileReader.tell s + d := by
  by_cases hcc : c
  · rw [if_pos hcc]
    have hd0 := hd hcc
    subst hd0
    refine ⟨⟨rfl, rfl, rfl, rfl, rfl, rfl, rfl, rfl, rfl, rfl⟩, fun _ => rfl, ?_⟩
    show (if s.file_can_tell then
        (if s.start ≥ s.length then s.start else s.start + (s.response.pos + 0))
      else s.start) = HTTPFileReader.tell s + 0
    unfold HTTPFileReader.tell
    split
    · split <;> omega
    · omega
  · rw [if_neg hcc]
    by_cases hft : s.file_can_tell = true
    · have hadd : ∀ (x : HState), x.file_can_tell = true → x._add_start d = x := by
        intro x hx
        unfold HState._add_start
        rw [hx]
        rfl
      rw [hadd _ (by exact hft)]
      refine ⟨⟨rfl, rfl, rfl, rfl, rfl, rfl, rfl, rfl, rfl, rfl⟩, fun _ => rfl, ?_⟩
      have h0 := hst0 hft
      have hl := hlen hft
      show (if s.file_can_tell then
          (if s.start ≥ s.length then s.start else s.start + (s.response.pos + d))
        else s.start) = HTTPFileReader.tell s + d
      unfold HTTPFileReader.tell
      rw [if_pos hft, if_pos hft, if_neg (by omega), if_neg (by omega)]
      omega
    · have hft' : s.file_can_tell = false := by
        revert hft; cases s.file_can_tell <;> simp
      have hadd : ∀ (x : HState), x.file_can_tell = false →
          x._add_start d = { x with start := x.start + d } := by
        intro x hx
        unfold HState._add_start
        rw [hx]
        rfl
      rw [hadd _ (by exact hft')]
      refine ⟨⟨rfl, rfl, rfl, rfl, rfl, rfl, rfl, rfl, rfl, rfl⟩,
        fun htt => absurd htt (by simp [hft']), ?_⟩
      show (if s.file_can_tell then
          (if s.start + d ≥ s.length then s.start + d else s.start + d + (s.response.pos + d))
        else s.start + d) = HTTPFileReader.tell s + d
      unfold HTTPFileReader.tell
      rw [if_neg (by simp [hft']), if_neg (by simp [hft'])]

theorem runRead_step (w : World) (s : HState) (op : ReadOp) (hinv : AccInv s) :
    ∃ s' d, runRead w s op = (s', .ok d) ∧ Untouched s s' ∧
      (s.file_can_tell = true → s'.start = s.start) ∧
      HTTPFileReader.tell s' = HTTPFileReader.tell s + d := by
  obtain ⟨h4, h6, hst0, hnh⟩ := hinv
  have hlen : ∀ hcx : Prop, ¬(hcx ∨ (s.chunked = false ∧ HTTPFileReader.tell s ≥ s.length)) →
      s.file_can_tell = true → 0 < s.length := by
    intro hcx hc hft
    by_contra hl
    have hl0 : s.length = 0 := by omega
    have hch : s.chunked = false := by
      by_contra hch
      have hcht : s.chunked = true := by revert hch; cases s.chunked <;> simp
      exact hnh ⟨hcht, hft, hl0⟩
    exact hc (Or.inr ⟨hch, by omega⟩)
  cases op with
  | read n =>
    by_cases hc : (n = 0 ∨ (s.chunked = false ∧ HTTPFileReader.tell s ≥ s.length))
    · refine ⟨s, 0, ?_, Untouched.rfl s, fun _ => rfl, by omega⟩
      simp only [runRead, read_empty w s n h4 hc]
      rfl
    · have hlen' := hlen _ hc
      simp only [runRead]
      rw [read_step w s n h4 h6 hc]
      by_cases hsn : n < 0
      · simp only [if_pos hsn]
        refine ⟨_, s.response.avail.length, rfl, ?_⟩
        exact acc_bump s s.response.avail.length _ (s.response.avail.isEmpty = true)
          (fun h => by rw [List.isEmpty_iff] at h; simp [h]) hst0 hlen'
      · simp only [if_neg hsn]
        refine ⟨_, (s.response.avail.take n.toNat).length, rfl, ?_⟩
        exact acc_bump s (s.response.avail.take n.toNat).length _
          ((s.response.avail.take n.toNat).isEmpty = true)
          (fun h => by rw [List.isEmpty_iff] at h; simp [h]) hst0 hlen'
  | readinto b =>
    by_cases hc : (b = 0 ∨ (s.chunked = false ∧ HTTPFileReader.tell s ≥ s.length))
    · refine ⟨s, 0, ?_, Untouched.rfl s, fun _ => rfl, by omega⟩
      simp only [runRead, readinto_empty w s b h4 hc]
    · have hlen' := hlen _ hc
      simp only [runRead]
      rw [readinto_step w s b h4 h6 hc]
      refine ⟨_, (s.response.avail.take b).length, rfl, ?_⟩
      exact acc_bump s (s.response.avail.take b).length _
        ((s.response.avail.take b).length = 0) (fun h => h) hst0 hlen'
  | readline n =>
    by_cases hc : (n = 0 ∨ (s.chunked = false ∧ HTTPFileReader.tell s ≥ s.length))
    · refine ⟨s, 0, ?_, Untouched.rfl s, fun _ => rfl, by omega⟩
      simp only [runRead, readline_empty w s n h4 hc]
      rfl
    · have hlen' := hlen _ hc
      simp only [runRead]
      rw [readline_step w s n h4 h6 hc]
      by_cases hsn : n < 0
      · simp only [if_pos hsn]
        refine ⟨_, (Handle.takeLine s.response.avail).length, rfl, ?_⟩
        exact acc_bump s (Handle.takeLine s.response.avail).length _
          ((Handle.takeLine s.response.avail).isEmpty = true)
          (fun h => by rw [List.isEmpty_iff] at h; simp [h]) hst0 hlen'
      · simp only [if_neg hsn]
        refine ⟨_, ((Handle.takeLine s.response.avail).take n.toNat).length, rfl, ?_⟩
        exact acc_bump s ((Handle.takeLine s.response.avail).take n.toNat).length _
          (((Handle.takeLine s.response.avail).take n.toNat).isEmpty = true)
          (fun h => by rw [List.isEmpty_iff] at h; simp [h]) hst0 hlen'
  | readlines hint =>
    by_cases hc : (s.chunked = false ∧ HTTPFileReader.tell s ≥ s.length)
    · refine ⟨s, 0, ?_, Untouched.rfl s, fun _ => rfl, by omega⟩
      simp only [runRead, readlines_empty w s hint h4 hc]
      rfl
    · have hlen' : s.file_can_tell = true → 0 < s.length :=
        hlen False (by intro hx; rcases hx with hx | hx; exact hx.elim; exact hc hx)
      simp only [runRead]
      rw [readlines_step w s hint h4 h6 hc]
      refine ⟨_, ((Handle.takeHint (Handle.linesOf s.response.avail) hint).map
        List.length).sum, rfl, ?_⟩
      exact acc_bump s _ _
        ((Handle.takeHint (Handle.linesOf s.response.avail) hint).isEmpty = true)
        (fun h => by rw [List.isEmpty_iff] at h; simp [h]) hst0 hlen'

theorem runReads_acc (w : World) (ops : List ReadOp) :
    ∀ (s : HState), AccInv s → ∀ (s' : HState) (t : Nat),
      runReads w s ops = (s', .ok t) →
      HTTPFileReader.tell s' = HTTPFileReader.tell s + t ∧ AccInv s' := by
  induction ops with
  | nil =>
    intro s hinv s' t heq
    simp only [runReads] at heq
    injection heq with hs ht
    injection ht with ht'
    subst hs
    subst ht'
    exact ⟨by omega, hinv⟩
  | cons op ops ih =>
    intro s hinv s' t heq
    obtain ⟨s₁, d, heq₁, hunt, hstp, htl⟩ := runRead_step w s op hinv
    obtain ⟨u1, u2, u3, u4, u5, u6, u7, u8, u9, u10⟩ := hunt
    have hinv₁ : AccInv s₁ := by
      obtain ⟨h4, h6, hst0, hnh⟩ := hinv
      refine ⟨by rw [u6]; exact h4, by rw [u8]; exact h6, ?_, ?_⟩
      · intro hft₁
        rw [hstp (by rw [← u4]; exact hft₁)]
        exact hst0 (by rw [← u4]; exact hft₁)
      · intro ⟨hch₁, hft₁, hl₁⟩
        exact hnh ⟨by rw [← u2]; exact hch₁, by rw [← u4]; exact hft₁, by rw [← u1]; exact hl₁⟩
    simp only [runReads, heq₁] at heq
    rcases h2 : runReads w s₁ ops with ⟨s₂, r⟩
    rw [h2] at heq
    cases r with
    | error e => cases heq
    | ok t₂ =>
      injection heq with hs ht
      injection ht with ht'
      subst hs
      subst ht'
      obtain ⟨htell₂, hinv₂⟩ := ih s₁ hinv₁ s₂ t₂ h2
      exact ⟨by omega, hinv₂⟩

/-- C8 (amended): for a stream opened at offset 0 with an open handle, after
any sequence of read-family calls tell() equals the total bytes those calls
delivered, except in the one accounting hole where the stream is chunked,
the transport tracks position, and the recorded length is 0 (see the
counterexample); and the two accounting sources are mutually exclusive:
under transport tracking _add_start never changes start, and under manual
accumulation tell() consults only start, never the handle. -/
theorem tell_counts_delivered_bytes :
    (∀ (w : World) (s : HState) (ops : List ReadOp) (s' : HState) (t : Nat),
      AccInit s → runReads w s ops = (s', .ok t) → HTTPFileReader.tell s' = t) ∧
    (∀ (s : HState) (d : Nat), s.file_can_tell = true → s._add_start d = s) ∧
    (∀ s : HState, s.file_can_tell = false → HTTPFileReader.tell s = s.start) := by
  refine ⟨?_, ?_, ?_⟩
  · intro w s ops s' t hinit heq
    obtain ⟨hs0, hp0, h4, h6, hnh⟩ := hinit
    have hinv : AccInv s := ⟨h4, h6, fun _ => hs0, hnh⟩
    have htell0 : HTTPFileReader.tell s = 0 := by
      unfold HTTPFileReader.tell
      rw [hs0, hp0]
      split
      · split <;> omega
      · rfl
    obtain ⟨htell, _⟩ := runReads_acc w ops s hinv s' t heq
    omega
  · intro s d hft
    unfold HState._add_start
    rw [hft]
    rfl
  · intro s hft
    unfold HTTPFileReader.tell
    rw [hft]
    rfl

/-- C8 counterexample: a chunked stream with recorded length 0 whose
transport reports its own position (file_can_tell), opened at offset 0: a
single read(2) delivers 2 bytes, yet tell() still returns 0 - the
start ≥ length early return in tell() hides the transport position - so
tell() does not equal the bytes delivered. -/
theorem tell_chunked_can_tell_zero_length_miscount :
    (HTTPFileReader.read (World.fixed [1, 2, 3])
        ⟨0, true, 0, false, 5, false, true, ⟨[1, 2, 3], 0, 0, false, []⟩, 0⟩ 2).2
      = .ok [1, 2] ∧
    HTTPFileReader.tell (HTTPFileReader.read (World.fixed [1, 2, 3])
        ⟨0, true, 0, false, 5, false, true, ⟨[1, 2, 3], 0, 0, false, []⟩, 0⟩ 2).1
      = 0 :=
  ⟨rfl, rfl⟩

theorem tell_counts_delivered_bytes_witness :
    AccInit ⟨4, false, 0, false, 9, true, false, ⟨[1, 2, 3, 4], 0, 0, false, []⟩, 0⟩ ∧
    runReads (World.fixed [1, 2, 3, 4])
        ⟨4, false, 0, false, 9, true, false, ⟨[1, 2, 3, 4], 0, 0, false, []⟩, 0⟩
        [ReadOp.read 2, ReadOp.readinto 5, ReadOp.readline (-1)]
      = (⟨4, false, 4, false, 9, true, false, ⟨[1, 2, 3, 4], 0, 4, false, [2, 2]⟩, 0⟩,
         .ok 4) ∧
    HTTPFileReader.tell
      ⟨4, false, 4, false, 9, true, false, ⟨[1, 2, 3, 4], 0, 4, false, [2, 2]⟩, 0⟩ = 4 :=
  ⟨by decide, rfl,
   tell_counts_delivered_bytes.1 (World.fixed [1, 2, 3, 4])
     ⟨4, false, 0, false, 9, true, false, ⟨[1, 2, 3, 4], 0, 0, false, []⟩, 0⟩
     [ReadOp.read 2, ReadOp.readinto 5, ReadOp.readline (-1)]
     ⟨4, false, 4, false, 9, true, false, ⟨[1, 2, 3, 4], 0, 4, false, [2, 2]⟩, 0⟩
     4 (by decide) (by rfl)⟩

theorem async_reconnect_eq (w : World) (s : HState) (o : Option Int) :
    AsyncHTTPFileReader.reconnect w s o = HTTPFileReader.reconnect w s o := rfl

theorem async_read_eq (w : World) (s : HState) (n : Int) :
    AsyncHTTPFileReader.read w s n = HTTPFileReader.read w s n := rfl

theorem async_readinto_eq (w : World) (s : HState) (b : Nat) :
    AsyncHTTPFileReader.readinto w s b = HTTPFileReader.readinto w s b := rfl

theorem async_readline_eq (w : World) (s : HState) (n : Int) :
    AsyncHTTPFileReader.readline w s n = HTTPFileReader.readline w s n := rfl

theorem async_readlines_eq (w : World) (s : HState) (hint : Int) :
    AsyncHTTPFileReader.readlines w s hint = HTTPFileReader.readlines w s hint := rfl

theorem async_discardGo_eq (w : World) (k : Nat) :
    ∀ (s : HState) (size : Nat),
      AsyncHTTPFileReader.discardGo w k s size = HTTPFileReader.discardGo w k s size := by
  induction k with
  | zero =>
    intro s size
    simp only [AsyncHTTPFileReader.discardGo, HTTPFileReader.discardGo, async_read_eq]
  | succ k ih =>
    intro s size
    simp only [AsyncHTTPFileReader.discardGo, HTTPFileReader.discardGo, async_readinto_eq]
    rcases h : HTTPFileReader.readinto w s COPY_BUFSIZE with ⟨s₁, r⟩
    cases r with
    | ok u => exact ih s₁ (size - COPY_BUFSIZE)
    | error e => rfl

theorem async_discardLoop_eq (w : World) (s : HState) (size : Nat) :
    AsyncHTTPFileReader.discardLoop w s size = HTTPFileReader.discardLoop w s size := by
  unfold AsyncHTTPFileReader.discardLoop HTTPFileReader.discardLoop
  exact async_discardGo_eq w _ s size

theorem async_seekCore_eq (w : World) (s : HState) (pos : Int) :
    AsyncHTTPFileReader.seekCore w s pos = HTTPFileReader.seekCore w s pos := by
  unfold AsyncHTTPFileReader.seekCore HTTPFileReader.seekCore
  rw [async_discardLoop_eq, async_reconnect_eq]

theorem async_seek_eq (w : World) (s : HState) (pos : Int) (whence : Nat) :
    AsyncHTTPFileReader.seek w s pos whence = HTTPFileReader.seek w s pos whence := by
  unfold AsyncHTTPFileReader.seek HTTPFileReader.seek
  rw [async_seekCore_eq, async_seekCore_eq, async_seekCore_eq]

/-- C9: the asynchronous variant's reconnect, read family and seek compute
exactly the same results - same values, same errors, same state
transitions (threshold comparison, fast-EOF check, length-mismatch
detection, DETACHED/OPEN transitions) - as the synchronous variant's; at
this byte level, with suspension erased, the two implementations are equal
as functions. -/
theorem async_sync_equivalence :
    (∀ (w : World) (s : HState) (o : Option Int),
      AsyncHTTPFileReader.reconnect w s o = HTTPFileReader.reconnect w s o) ∧
    (∀ (w : World) (s : HState) (n : Int),
      AsyncHTTPFileReader.read w s n = HTTPFileReader.read w s n) ∧
    (∀ (w : World) (s : HState) (b : Nat),
      AsyncHTTPFileReader.readinto w s b = HTTPFileReader.readinto w s b) ∧
    (∀ (w : World) (s : HState) (n : Int),
      AsyncHTTPFileReader.readline w s n = HTTPFileReader.readline w s n) ∧
    (∀ (w : World) (s : HState) (hint : Int),
      AsyncHTTPFileReader.readlines w s hint = HTTPFileReader.readlines w s hint) ∧
    (∀ (w : World) (s : HState) (pos : Int) (whence : Nat),
      AsyncHTTPFileReader.seek w s pos whence = HTTPFileReader.seek w s pos whence) :=
  ⟨async_reconnect_eq, async_read_eq, async_readinto_eq, async_readline_eq,
   async_readlines_eq, async_seek_eq⟩

theorem reconnect_resolve_nonseekable (s : HState) (o : Option Int)
    (hs : s._seekable = false) :
    HTTPFileReader.reconnectResolve s o = 0 := by
  unfold HTTPFileReader.reconnectResolve
  rw [if_pos hs]

theorem reconnect_guard_fail (w : World) (s : HState) (start? : Option Int)
    (hguard : (!s._seekable && (match start? with
      | none => HTTPFileReader.tell s != 0
      | some k => k != 0)) = true) :
    HTTPFileReader.reconnect w s start? = (s, .error .reconnectUnsupported) := by
  unfold HTTPFileReader.reconnect
  rw [hguard]
  simp

theorem reconnect_pass_ge (w : World) (s : HState) (start? : Option Int)
    (hguard : (!s._seekable && (match start? with
      | none => HTTPFileReader.tell s != 0
      | some k => k != 0)) = false)
    (hge : HTTPFileReader.reconnectResolve s start? ≥ s.length) :
    HTTPFileReader.reconnect w s start? =
      ({ s with start := HTTPFileReader.reconnectResolve s start? },
       .ok (HTTPFileReader.reconnectResolve s start?)) := by
  rw [reconnect_guard_pass w s start? hguard]
  simp only [ge_iff_le, hge, if_pos]

theorem reconnect_pass_lt (w : World) (s : HState) (start? : Option Int)
    (hguard : (!s._seekable && (match start? with
      | none => HTTPFileReader.tell s != 0
      | some k => k != 0)) = false)
    (hlt : HTTPFileReader.reconnectResolve s start? < s.length) :
    HTTPFileReader.reconnect w s start? =
      (if some s.length ≠ (w.openAt (HTTPFileReader.reconnectResolve s start?)).2 then
        ({ s with response := s.response.close, opens := s.opens + 1 }, .error .sizeChanged)
      else
        ({ s with response := (w.openAt (HTTPFileReader.reconnectResolve s start?)).1,
                  start := HTTPFileReader.reconnectResolve s start?, closed := false,
                  opens := s.opens + 1 },
          .ok (HTTPFileReader.reconnectResolve s start?))) := by
  rw [reconnect_guard_pass w s start? hguard]
  simp only [ge_iff_le,
    if_neg (by omega : ¬(s.length ≤ HTTPFileReader.reconnectResolve s start?))]

/-- C10 (amended): on a stream that never confirmed range support, reconnect
raises the unsupported-operation error exactly when it would not restart at
offset 0 (an explicit nonzero target, or no target while the position is
nonzero); when it does restart at 0 it succeeds - reopening the resource
from the beginning when the recorded length is positive, but merely
recording start 0 without opening anything when the recorded length is 0 -
and every seek on such a (non-closed) stream fails with the not-seekable
error. -/
theorem nonseekable_reconnect_characterization :
    ∀ (s : HState) (start? : Option Int), s._seekable = false →
    (∀ w : World, ((HTTPFileReader.reconnect w s start?).2
        = .error .reconnectUnsupported ↔
      (match start? with
        | none => HTTPFileReader.tell s ≠ 0
        | some k => k ≠ 0))) ∧
    ((match start? with
        | none => HTTPFileReader.tell s = 0
        | some k => k = 0) →
      (∀ content : List Nat, s.length = content.length → 0 < s.length →
        HTTPFileReader.reconnect (World.fixed content) s start? =
          ({ s with response := ⟨content, 0, 0, false, []⟩, start := 0, closed := false,
                    opens := s.opens + 1 }, .ok 0)) ∧
      (s.length = 0 → ∀ w : World,
        HTTPFileReader.reconnect w s start? = ({ s with start := 0 }, .ok 0))) ∧
    (s.closed = false → ∀ (w : World) (p : Int) (wh : Nat),
      (HTTPFileReader.seek w s p wh).2 = .error .notSeekableStream) := by
  intro s start? hs
  have hseek : s.closed = false → ∀ (w : World) (p : Int) (wh : Nat),
      (HTTPFileReader.seek w s p wh).2 = .error .notSeekableStream := by
    intro h4 w p wh
    unfold HTTPFileReader.seek
    simp [h4, hs]
  have hmain : ∀ hguard : (!s._seekable && (match start? with
      | none => HTTPFileReader.tell s != 0
      | some k => k != 0)) = false,
      (∀ w : World, (HTTPFileReader.reconnect w s start?).2
        ≠ .error .reconnectUnsupported) ∧
      (∀ content : List Nat, s.length = content.length → 0 < s.length →
        HTTPFileReader.reconnect (World.fixed content) s start? =
          ({ s with response := ⟨content, 0, 0, false, []⟩, start := 0, closed := false,
                    opens := s.opens + 1 }, .ok 0)) ∧
      (s.length = 0 → ∀ w : World,
        HTTPFileReader.reconnect w s start? = ({ s with start := 0 }, .ok 0)) := by
    intro hguard
    have hres : HTTPFileReader.reconnectResolve s start? = 0 :=
      reconnect_resolve_nonseekable s start? hs
    refine ⟨?_, ?_, ?_⟩
    · intro w herr
      by_cases hlen0 : s.length = 0
      · rw [reconnect_pass_ge w s start? hguard (by omega)] at herr
        exact Except.noConfusion herr
      · rw [reconnect_pass_lt w s start? hguard (by omega)] at herr
        by_cases hmis : some s.length ≠ (w.openAt (HTTPFileReader.reconnectResolve s start?)).2
        · rw [if_pos hmis] at herr
          exact Err.noConfusion (Except.error.inj herr)
        · rw [if_neg hmis] at herr
          exact Except.noConfusion herr
    · intro content hlen hpos
      rw [reconnect_pass_lt (World.fixed content) s start? hguard (by omega), hres]
      rw [if_neg (by
        show ¬(some s.length ≠ ((World.fixed content).openAt 0).2)
        rw [hlen]
        simp [World.fixed])]
      rfl
    · intro hlen0 w
      rw [reconnect_pass_ge w s start? hguard (by omega), hres]
  cases start? with
  | none =>
    by_cases ht : HTTPFileReader.tell s = 0
    · have hguard : (!s._seekable && (match (none : Option Int) with
          | none => HTTPFileReader.tell s != 0
          | some k => k != 0)) = false := by
        simp [hs, ht]
      obtain ⟨hnerr, hco, hz⟩ := hmain hguard
      exact ⟨fun w => ⟨fun herr => absurd herr (hnerr w), fun hne => absurd ht hne⟩,
        fun _ => ⟨hco, hz⟩, hseek⟩
    · have hguard : (!s._seekable && (match (none : Option Int) with
          | none => HTTPFileReader.tell s != 0
          | some k => k != 0)) = true := by
        simp [hs, ht]
      refine ⟨?_, fun hzero => absurd hzero ht, hseek⟩
      intro w
      rw [reconnect_guard_fail w s none hguard]
      exact ⟨fun _ => ht, fun _ => rfl⟩
  | some k =>
    by_cases hk : k = 0
    · have hguard : (!s._seekable && (match (some k : Option Int) with
          | none => HTTPFileReader.tell s != 0
          | some k => k != 0)) = false := by
        simp [hs, hk]
      obtain ⟨hnerr, hco, hz⟩ := hmain hguard
      exact ⟨fun w => ⟨fun herr => absurd herr (hnerr w), fun hne => absurd hk hne⟩,
        fun _ => ⟨hco, hz⟩, hseek⟩
    · have hguard : (!s._seekable && (match (some k : Option Int) with
          | none => HTTPFileReader.tell s != 0
          | some k => k != 0)) = true := by
        simp [hs, hk]
      refine ⟨?_, fun hzero => absurd hzero hk, hseek⟩
      intro w
      rw [reconnect_guard_fail w s (some k) hguard]
      exact ⟨fun _ => hk, fun _ => rfl⟩

/-- C10 counterexample: a non-seekable chunked stream (recorded length 0)
whose handle has already delivered 2 bytes: reconnect(0) succeeds but opens
no new connection and keeps the same mid-stream handle - it does not
"reopen the resource from the beginning" as the claim states. -/
theorem nonseekable_reconnect_zero_no_reopen :
    (HTTPFileReader.reconnect (World.fixed [1, 2, 3])
        ⟨0, true, 0, false, 5, false, true, ⟨[1, 2, 3], 0, 2, false, [2]⟩, 0⟩
        (some 0)).2 = .ok 0 ∧
    (HTTPFileReader.reconnect (World.fixed [1, 2, 3])
        ⟨0, true, 0, false, 5, false, true, ⟨[1, 2, 3], 0, 2, false, [2]⟩, 0⟩
        (some 0)).1.opens = 0 ∧
    (HTTPFileReader.reconnect (World.fixed [1, 2, 3])
        ⟨0, true, 0, false, 5, false, true, ⟨[1, 2, 3], 0, 2, false, [2]⟩, 0⟩
        (some 0)).1.response = ⟨[1, 2, 3], 0, 2, false, [2]⟩ :=
  ⟨rfl, rfl, rfl⟩

theorem nonseekable_reconnect_characterization_witness :
    ((HTTPFileReader.reconnect (World.fixed [7, 8, 9])
        ⟨3, false, 0, false, 5, false, false, ⟨[7, 8, 9], 0, 0, false, []⟩, 0⟩
        (some 5)).2 = .error .reconnectUnsupported) ∧
    (HTTPFileReader.reconnect (World.fixed [7, 8, 9])
        ⟨3, false, 0, false, 5, false, false, ⟨[7, 8, 9], 0, 0, false, []⟩, 0⟩
        (some 0) =
      (⟨3, false, 0, false, 5, false, false, ⟨[7, 8, 9], 0, 0, false, []⟩, 1⟩, .ok 0)) ∧
    ((HTTPFileReader.seek (World.fixed [7, 8, 9])
        ⟨3, false, 0, false, 5, false, false, ⟨[7, 8, 9], 0, 0, false, []⟩, 0⟩
        1 0).2 = .error .notSeekableStream) := by
  refine ⟨?_, ?_, ?_⟩
  · exact (nonseekable_reconnect_characterization
      ⟨3, false, 0, false, 5, false, false, ⟨[7, 8, 9], 0, 0, false, []⟩, 0⟩
      (some 5) rfl).1 (World.fixed [7, 8, 9]) |>.mpr (by decide)
  · exact ((nonseekable_reconnect_characterization
      ⟨3, false, 0, false, 5, false, false, ⟨[7, 8, 9], 0, 0, false, []⟩, 0⟩
      (some 0) rfl).2.1 rfl).1 [7, 8, 9] rfl (by decide)
  · exact (nonseekable_reconnect_characterization
      ⟨3, false, 0, false, 5, false, false, ⟨[7, 8, 9], 0, 0, false, []⟩, 0⟩
      (some 1) rfl).2.2 rfl (World.fixed [7, 8, 9]) 1 0
